import Mathlib

/-!
Verification of the retirement-benefit register validation and estimation
engine: a shallow embedding of `src/validator.py` (rule validation),
`src/validatorcalculate.py` (benefit estimation), and the relevant parts of
`src/backend/services/validator.py` and `src/backend/services/data_mapper.py`.

Modelling conventions:
* Python/pandas floats are embedded as exact rationals (`ℚ`); `round(x, n)`
  is embedded as round-half-to-even on rationals.
* A pandas cell is a `CellValue`: `null` stands for a missing value (`NaN`),
  the other constructors for Python ints, floats, strings and
  datetime/Timestamp values.
* Code that can raise a Python exception is embedded in `Except PyErr`.
* `str(float)` rendering is only modelled faithfully for integral floats
  (the `"235765.0"` spreadsheet artifact); no theorem below depends on the
  rendering of non-integral floats.
-/

unseal Rat.mul Rat.inv Rat.add Rat.sub Rat.ofScientific

namespace Spec2Proof

/-- Python exception kinds raised by the embedded code. -/
inductive PyErr where
  | typeError
  | valueError
deriving DecidableEq, Repr

instance {ε α : Type} [DecidableEq ε] [DecidableEq α] : DecidableEq (Except ε α) := fun x y =>
  match x, y with
  | .error a, .error b => decidable_of_iff (a = b) (by simp)
  | .ok a, .ok b => decidable_of_iff (a = b) (by simp)
  | .error _, .ok _ => isFalse (by simp)
  | .ok _, .error _ => isFalse (by simp)

/-- A raw spreadsheet cell as seen by pandas: missing (`NaN`), int, float,
string, or an already-typed date. -/
inductive CellValue where
  | null
  | int (n : ℤ)
  | float (q : ℚ)
  | str (s : String)
  | date (y m d : ℤ)
deriving DecidableEq, Repr

/-- A record/row: an association list from column name to cell value
(a row of `pd.DataFrame(data)` built from a list of dicts). -/
abbrev Row := List (String × CellValue)

/-- A calendar date (proleptic Gregorian), as used by `datetime`. -/
structure Date where
  y : ℤ
  m : ℤ
  d : ℤ
deriving DecidableEq, Repr

/-! ### String helpers (Python `str` operations on `List Char`) -/

/-- Python `str.strip()` (strip whitespace at both ends). -/
def pyStrip (l : List Char) : List Char :=
  ((l.dropWhile Char.isWhitespace).reverse.dropWhile Char.isWhitespace).reverse

/-- Python `s.replace(".0", "")`: remove every non-overlapping occurrence of
`".0"`, scanning left to right. -/
def replaceDotZero : List Char → List Char
  | [] => []
  | '.' :: '0' :: rest => replaceDotZero rest
  | c :: rest => c :: replaceDotZero rest

/-- Python `str.isdigit()` (restricted to ASCII digits, the only case the
data can produce). -/
def allDigits (l : List Char) : Bool := l.all Char.isDigit

/-- Numeric value of a list of ASCII digits (as read by Python `int`). -/
def charsToNat (l : List Char) : ℕ :=
  l.foldl (fun acc c => 10 * acc + (c.toNat - 48)) 0

/-- Python `int(s)` on a string expected to hold digits: fails on anything
else (signs and exotic spacing do not occur in the modelled call sites). -/
def digitsToNat? (l : List Char) : Option ℕ :=
  if l ≠ [] ∧ allDigits l then some (charsToNat l) else none

/-! ### Dates -/

/-- Leap-year test (years in the data are all ≥ 1). -/
def isLeap (y : ℤ) : Bool := y % 4 = 0 ∧ (y % 100 ≠ 0 ∨ y % 400 = 0)

/-- Number of days in a month. -/
def daysInMonth (y m : ℤ) : ℤ :=
  if m = 2 then (if isLeap y then 29 else 28)
  else if m = 4 ∨ m = 6 ∨ m = 9 ∨ m = 11 then 30
  else 31

/-- A (year, month, day) triple `datetime.strptime` accepts. -/
def validDate (y m d : ℤ) : Bool :=
  1 ≤ y ∧ y ≤ 9999 ∧ 1 ≤ m ∧ m ≤ 12 ∧ 1 ≤ d ∧ d ≤ daysInMonth y m

/-- Days since 1970-01-01 of a proleptic-Gregorian date (the standard
days-from-civil algorithm; agrees with Python `date.toordinal` up to a
constant, so date differences and comparisons coincide). -/
def Date.toDays (dt : Date) : ℤ :=
  let y := if dt.m ≤ 2 then dt.y - 1 else dt.y
  let era := (if 0 ≤ y then y else y - 399) / 400
  let yoe := y - era * 400
  let mp := (dt.m + 9) % 12
  let doy := (153 * mp + 2) / 5 + dt.d - 1
  let doe := yoe * 365 + yoe / 4 - yoe / 100 + doy
  era * 146097 + doe - 719468

/-- `datetime` ordering (`<=`). -/
def Date.le (a b : Date) : Bool := a.toDays ≤ b.toDays

/-- `datetime` ordering (`<`). -/
def Date.lt (a b : Date) : Bool := a.toDays < b.toDays

/-- Zero-padded decimal rendering of width ≥ `w`. -/
def padNat (w : ℕ) (n : ℕ) : String :=
  let s := toString n
  let k := w - s.length
  String.mk (List.replicate k '0') ++ s

/-- Python `str(datetime.date(...))`: `YYYY-MM-DD`. -/
def Date.toIso (dt : Date) : String :=
  padNat 4 dt.y.natAbs ++ "-" ++ padNat 2 dt.m.natAbs ++ "-" ++ padNat 2 dt.d.natAbs

/-- `datetime.strptime(s, "%Y%m%d")` on an 8-character string:
digits only, then calendar-validity check. -/
def strptimeYmd8 (s : List Char) : Option Date :=
  if s.length = 8 ∧ allDigits s then
    let y : ℤ := charsToNat (s.take 4)
    let m : ℤ := charsToNat ((s.drop 4).take 2)
    let d : ℤ := charsToNat (s.drop 6)
    if validDate y m d then some ⟨y, m, d⟩ else none
  else none

/-! ### Numbers: parsing, rounding, formatting -/

/-- Python `float(s)` on a plain decimal literal: optional sign, digits,
optional fractional part.  (Exponent forms, `inf`, `nan` are out of the
modelled scope; no theorem depends on them.) -/
def pyParseFloat (s : String) : Option ℚ :=
  let l := pyStrip s.data
  let (sign, l) : ℚ × List Char :=
    match l with
    | '-' :: rest => (-1, rest)
    | '+' :: rest => (1, rest)
    | _ => (1, l)
  let intPart := l.takeWhile Char.isDigit
  let rest := l.dropWhile Char.isDigit
  match rest with
  | [] =>
      if intPart = [] then none
      else some (sign * (charsToNat intPart : ℚ))
  | '.' :: frac =>
      if allDigits frac ∧ (intPart ≠ [] ∨ frac ≠ []) then
        some (sign * ((charsToNat intPart : ℚ) +
          (charsToNat frac : ℚ) / ((10 : ℚ) ^ frac.length)))
      else none
  | _ => none

/-- Round half to even to an integer (Python `round` on exact values). -/
def roundHalfEven (x : ℚ) : ℤ :=
  let f := ⌊x⌋
  let r := x - (f : ℚ)
  if r < 1/2 then f
  else if 1/2 < r then f + 1
  else if f % 2 = 0 then f else f + 1

/-- Python `round(x, k)` on exact rationals. -/
def pyRound (k : ℕ) (x : ℚ) : ℚ :=
  (roundHalfEven (x * (10 : ℚ) ^ k) : ℚ) / (10 : ℚ) ^ k

/-- Insert a thousands separator every three digits (input: digits reversed). -/
def group3 : List Char → List Char
  | a :: b :: c :: d :: rest => a :: b :: c :: ',' :: group3 (d :: rest)
  | l => l

/-- Python `f"{n:,}"` for an integer. -/
def commaFmtInt (n : ℤ) : String :=
  let digits := (group3 (toString n.natAbs).data.reverse).reverse
  (if n < 0 then "-" else "") ++ String.mk digits

/-- Python `f"{x:,.0f}"` for a numeric value (rounded half-even; the
`-0.5 < x < 0` signed-zero artifact of floats is not modelled). -/
def commaFmt0f (x : ℚ) : String := commaFmtInt (roundHalfEven x)

/-- Python `str([i, j, ...])` for a list of integers. -/
def fmtIntList (l : List ℤ) : String :=
  "[" ++ String.intercalate ", " (l.map toString) ++ "]"

/-! ### Cell-level operations -/

namespace CellValue

/-- `pd.isna` / `pd.isnull` on a scalar cell. -/
def isNa : CellValue → Bool
  | .null => true
  | _ => false

/-- Python `str(value)` of a cell.  Non-integral floats would render in
Python's shortest-decimal form; the modelled data never reaches that case
(documented approximation, used by no theorem). -/
def pyStr : CellValue → String
  | .null => "nan"
  | .int n => toString n
  | .float q =>
      if q.den = 1 then toString q.num ++ ".0"
      else toString q.num ++ "/" ++ toString q.den
  | .str s => s
  | .date y m d => Date.toIso ⟨y, m, d⟩ ++ " 00:00:00"

/-- `pd.to_numeric(value, errors='coerce')` on a scalar (None/NaN and
unparseable strings coerce to NaN = `none`). -/
def toNumeric : CellValue → Option ℚ
  | .null => none
  | .int n => some n
  | .float q => some q
  | .str s => pyParseFloat s
  | .date _ _ _ => none

/-- Python `float(value)` with any exception mapped to `none`
(`float(None)`/`float(datetime)` raise, `float(nan)` is NaN). -/
def toFloatExc : CellValue → Option ℚ
  | .null => none
  | .int n => some n
  | .float q => some q
  | .str s => pyParseFloat s
  | .date _ _ _ => none

/-- Python `int(float(value))` with any exception mapped to `none`
(truncation toward zero). -/
def toIntViaFloat (v : CellValue) : Option ℤ :=
  (toFloatExc v).map (fun q => q.num / (q.den : ℤ))

/-- pandas elementwise equality as used by `==`, `duplicated` and `unique`
on id columns: numbers compare across int/float, NaN groups with NaN
(the `duplicated`/`unique` hash-based convention; all uses below are on
null-free lists). -/
def cellEqB : CellValue → CellValue → Bool
  | .null, .null => true
  | .int a, .int b => a = b
  | .int a, .float b => (a : ℚ) = b
  | .float a, .int b => a = (b : ℚ)
  | .float a, .float b => a = b
  | .str a, .str b => a = b
  | .date a b c, .date x y z => a = x ∧ b = y ∧ c = z
  | _, _ => false

end CellValue

/-- The numeric value of a cell that holds a number (`int`/`float`);
`none` for NaN, strings and dates.  Used to state claims about records whose
estimate fields are present numeric values. -/
def cellNum? : CellValue → Option ℚ
  | .int n => some n
  | .float q => some q
  | _ => none

/-- Count of elements of `l` equal (pandas `==`) to `v`. -/
def countB (l : List CellValue) (v : CellValue) : ℕ :=
  (l.filter (fun a => CellValue.cellEqB a v)).length

/-- Membership up to pandas equality. -/
def memB (l : List CellValue) (v : CellValue) : Bool :=
  l.any (fun a => CellValue.cellEqB a v)

/-- First-occurrence deduplication, accumulator form (pandas `Series.unique`):
an element is dropped when an earlier element equal to it was kept. -/
def dedupByAux (eq : CellValue → CellValue → Bool) (seen : List CellValue) :
    List CellValue → List CellValue
  | [] => []
  | a :: rest =>
      if seen.any (fun b => eq b a) then dedupByAux eq seen rest
      else a :: dedupByAux eq (a :: seen) rest

/-- First-occurrence deduplication (pandas `Series.unique`). -/
def dedupBy (eq : CellValue → CellValue → Bool) (l : List CellValue) : List CellValue :=
  dedupByAux eq [] l

/-- First-occurrence deduplication for strings, accumulator form. -/
def dedupStrAux (seen : List String) : List String → List String
  | [] => []
  | a :: rest =>
      if seen.contains a then dedupStrAux seen rest
      else a :: dedupStrAux (a :: seen) rest

/-- First-occurrence deduplication for strings. -/
def dedupStr (l : List String) : List String := dedupStrAux [] l

/-! ### DataFrame-level helpers -/

/-- Column list of `pd.DataFrame(data)` built from a list of dicts:
union of the row keys in order of first appearance. -/
def collectCols (rows : List Row) : List String :=
  dedupStr (rows.flatMap (fun r => r.map Prod.fst))

/-- `Series.get(col)`: lookup with missing keys surfacing as NaN (a row of a
DataFrame has every column, absent dict keys having become NaN). -/
def rowGet (r : Row) (c : String) : CellValue :=
  match r.find? (fun p => p.1 = c) with
  | some p => p.2
  | none => .null

/-- Contiguous-sublist test on character lists. -/
def isInfixB (needle : List Char) : List Char → Bool
  | [] => needle.isEmpty
  | c :: rest => needle.isPrefixOf (c :: rest) || isInfixB needle rest

/-- Substring test: `kw in str(col)`. -/
def strContains (s kw : String) : Bool := isInfixB kw.data s.data

/-- `_find_column`: first column whose name contains the keyword. -/
def findColumn (cols : List String) (kw : String) : Option String :=
  cols.find? (fun c => strContains c kw)

/-- `_find_column` with an exclusion keyword (`_validate_additional_employees`
uses it to find `사유` while skipping `사유발생일`). -/
def findColumnExcl (cols : List String) (kw excl : String) : Option String :=
  cols.find? (fun c => strContains c kw ∧ ¬ strContains c excl)

/-! ## `src/validator.py` — `DataValidator` -/

namespace DataValidator

/-- One validation finding (`{"category": ..., "emp_id": ..., "detail": ...}`);
`empId = none` models a Python `None` employee id. -/
structure Finding where
  category : String
  empId : Option String
  detail : String
deriving DecidableEq, Repr

/-- The string transformation inside `_normalize_employee_id`:
strip, then drop one trailing `".0"`. -/
def normStr (s : String) : String :=
  let t := pyStrip s.data
  let t := if ['.', '0'].isSuffixOf t then t.take (t.length - 2) else t
  String.mk t

/-- `_normalize_employee_id`. -/
def normalizeEmployeeId (v : CellValue) : Option String :=
  if v.isNa then none else some (normStr v.pyStr)

/-- Modelled subset of the `pd.to_datetime` string fallback in `_parse_date`:
the zero-padded `YYYY-MM-DD` form.  Other exotic formats pandas would accept
are outside the modelled scope; no theorem depends on them. -/
def parseDashDate : List Char → Option Date
  | [y1, y2, y3, y4, '-', m1, m2, '-', d1, d2] =>
      if allDigits [y1, y2, y3, y4, m1, m2, d1, d2] then
        let y : ℤ := charsToNat [y1, y2, y3, y4]
        let m : ℤ := charsToNat [m1, m2]
        let d : ℤ := charsToNat [d1, d2]
        if validDate y m d then some ⟨y, m, d⟩ else none
      else none
  | _ => none

/-- `DataValidator._parse_date`: typed dates pass through; strings/numbers are
stripped, de-`".0"`-ed; 8-digit strings parse as `YYYYMMDD`; 6-digit strings
as `YYMMDD` with pivot 50 (`yy < 50 → 2000 + yy`, else `1900 + yy`); anything
else falls to the pandas parser (modelled subset). -/
def parseDate (v : CellValue) : Option Date :=
  match v with
  | .null => none
  | .date y m d => some ⟨y, m, d⟩
  | _ =>
    let s := replaceDotZero (pyStrip v.pyStr.data)
    if s ≠ [] ∧ allDigits s then
      if s.length = 8 then strptimeYmd8 s
      else if s.length = 6 then
        let yy := charsToNat (s.take 2)
        let year : ℕ := if yy < 50 then 2000 + yy else 1900 + yy
        strptimeYmd8 ((toString year).data ++ s.drop 2)
      else parseDashDate s
    else parseDashDate s

/-- `_check_date_validity`: decode the last four characters as `MMDD` and
report month > 12 or day > 31. -/
def checkDateValidity (v : CellValue) (label : String) : Option String :=
  if v.isNa then none
  else
    let s := replaceDotZero (pyStrip v.pyStr.data)
    if 6 ≤ s.length then
      let mmdd := s.drop (s.length - 4)
      match digitsToNat? (mmdd.take 2), digitsToNat? (mmdd.drop 2) with
      | some mm, some dd =>
          if 12 < mm ∨ 31 < dd then
            some (label ++ ", 월>" ++ toString mm ++ " or 일>" ++ toString dd ++ " (날짜 형식 오류)")
          else none
      | _, _ => none
    else none

/-- `pd.isna(x)` on a local that is either Python `None` (column absent) or a
cell value. -/
def isNaOpt : Option CellValue → Bool
  | none => true
  | some v => v.isNa

/-- Python `x == 0` on such a local (strings, `None` and NaN are not 0). -/
def eqZeroOpt : Option CellValue → Bool
  | some (.int n) => n = 0
  | some (.float q) => q = 0
  | _ => false

/-- Code-point lexicographic `<` on character lists (Python string `<`). -/
def charListLt : List Char → List Char → Bool
  | [], [] => false
  | [], _ :: _ => true
  | _ :: _, [] => false
  | a :: as, b :: bs =>
      if a.toNat < b.toNat then true
      else if b.toNat < a.toNat then false
      else charListLt as bs

/-- Python string `<`. -/
def strLtB (a b : String) : Bool := charListLt a.data b.data

/-- Python `<` between two cell values; mixed str/number (and `None`)
comparisons raise `TypeError`, NaN compares false against numbers. -/
def pyLtV : CellValue → CellValue → Except PyErr Bool
  | .int a, .int b => .ok (a < b)
  | .int a, .float b => .ok ((a : ℚ) < b)
  | .float a, .int b => .ok (a < (b : ℚ))
  | .float a, .float b => .ok (a < b)
  | .null, .int _ => .ok false
  | .null, .float _ => .ok false
  | .int _, .null => .ok false
  | .float _, .null => .ok false
  | .null, .null => .ok false
  | .str a, .str b => .ok (strLtB a b)
  | .date a b c, .date x y z => .ok (Date.lt ⟨a, b, c⟩ ⟨x, y, z⟩)
  | _, _ => .error .typeError

/-- Python `f"{v:,.0f}"`: formats numbers (and NaN as `"nan"`), raises
`ValueError` on strings; `datetime.__format__` echoes the spec string. -/
def fmtFloat0V : CellValue → Except PyErr String
  | .int n => .ok (commaFmtInt n)
  | .float q => .ok (commaFmt0f q)
  | .null => .ok "nan"
  | .str _ => .error .valueError
  | .date _ _ _ => .ok ",.0f"

/-- `float(job_type)` under `try/except` with fallback 0.  A NaN job type
yields NaN in Python, and `NaN > 2` is false exactly as `0 > 2` is, so NaN is
mapped to 0 here. -/
def jobTypeNum (jt : Option CellValue) : ℚ :=
  match jt with
  | none => 0
  | some v => (v.toFloatExc).getD 0

/-- Lines 145–158 of `src/validator.py`: the executive/contract
(`종업원 구분 > 2`) conditional block.  The final ordering check compares the
raw cell values with Python `<`, which raises on mixed types. -/
def execCheck (empId : Option String) (jobNum : ℚ) (curr next : Option CellValue) :
    Except PyErr (List Finding) := do
  if 2 < jobNum then
    let f1 : List Finding :=
      if isNaOpt curr || eqZeroOpt curr then
        [⟨"추계액 논리 오류(임원/계약직)", empId, "당년도 추계액이 0 또는 누락됨"⟩] else []
    let f2 : List Finding :=
      if isNaOpt next || eqZeroOpt next then
        [⟨"추계액 논리 오류(임원/계약직)", empId, "차년도 추계액이 0 또는 누락됨"⟩] else []
    match curr, next with
    | some cv, some nv =>
        let lt ← pyLtV cv nv
        if ¬ lt then
          let cs ← fmtFloat0V cv
          let ns ← fmtFloat0V nv
          pure (f1 ++ f2 ++
            [⟨"추계액 논리 오류(임원/계약직)", empId,
              "당년도(" ++ cs ++ ") >= 차년도(" ++ ns ++ ")"⟩])
        else pure (f1 ++ f2)
    | _, _ => pure (f1 ++ f2)
  else pure []

/-- The negative-amount check (`isinstance(v, (int, float)) and v < 0`). -/
def negCheck (empId : Option String) (v : Option CellValue) (label : String) : List Finding :=
  match v with
  | some (.int n) =>
      if n < 0 then [⟨"금액 오류(음수)", empId, label ++ " 음수 (" ++ commaFmtInt n ++ ")"⟩] else []
  | some (.float q) =>
      if q < 0 then [⟨"금액 오류(음수)", empId, label ++ " 음수 (" ++ commaFmt0f q ++ ")"⟩] else []
  | _ => []

/-- The required-field (`필수값 누락`) loop shared by the three per-sheet
validators. -/
def requiredFindings (empId : Option String) (row : Row)
    (req : List (Option String × String)) : List Finding :=
  req.foldl (fun acc p =>
    match p.1 with
    | some c =>
        let val := rowGet row c
        if val.isNa || pyStrip val.pyStr.data = [] then
          acc ++ [⟨"필수값 누락", empId, p.2 ++ " 데이터 없음"⟩]
        else acc
    | none => acc) []

/-- The per-record body of `_validate_active_employees` (lines 110–204),
in source order; raises exactly where the Python raises. -/
def activeRowFindings (base : Date)
    (colEmp colBirth colJoin colSalary colJob colCurr colNext colInterimAmt colInterimDate : Option String)
    (idx : ℕ) (row : Row) : Except PyErr (List Finding) := do
  let empId : Option String :=
    match colEmp with
    | some c => normalizeEmployeeId (rowGet row c)
    | none => some ("Row " ++ toString (idx + 1))
  let reqF := requiredFindings empId row
    [(colEmp, "사원번호"), (colBirth, "생년월일"), (colJoin, "입사일자"),
     (colSalary, "기준급여"), (colJob, "종업원 구분")]
  let curr : Option CellValue := colCurr.map (rowGet row)
  let next : Option CellValue := colNext.map (rowGet row)
  let interimAmt : Option CellValue := colInterimAmt.map (rowGet row)
  let negFs := negCheck empId curr "당년도 추계액" ++ negCheck empId next "차년도 추계액" ++
    negCheck empId interimAmt "중간정산액"
  let jt : Option CellValue := colJob.map (rowGet row)
  let execFs ← execCheck empId (jobTypeNum jt) curr next
  let birth := colBirth.bind (fun c => parseDate (rowGet row c))
  let join := colJoin.bind (fun c => parseDate (rowGet row c))
  let interim := colInterimDate.bind (fun c => parseDate (rowGet row c))
  let ageF : List Finding :=
    match birth, join with
    | some b, some j =>
        let age := j.y - b.y
        if age < 17 ∨ 70 < age then
          [⟨"입사연령 이상", empId, "입사 시 연령 " ++ toString age ++ "세"⟩] else []
    | _, _ => []
  let ordJoinBirth : List Finding :=
    match birth, join with
    | some b, some j =>
        if Date.lt j b then
          [⟨"날짜 선후 모순", empId, "입사일(" ++ j.toIso ++ ") < 생년월일(" ++ b.toIso ++ ")"⟩]
        else []
    | _, _ => []
  let ordInterimJoin : List Finding :=
    match interim, join with
    | some idt, some j =>
        if Date.le idt j then
          [⟨"날짜 확인 필요", empId, "중간정산일(" ++ idt.toIso ++ ") <= 입사일(" ++ j.toIso ++ ")"⟩]
        else []
    | _, _ => []
  let ordBaseJoin : List Finding :=
    match join with
    | some j =>
        if Date.le base j then
          [⟨"날짜 선후 모순", empId, "기준일(" ++ base.toIso ++ ") <= 입사일(" ++ j.toIso ++ ")"⟩]
        else []
    | none => []
  let ordBaseInterim : List Finding :=
    match interim with
    | some idt =>
        if Date.le base idt then
          [⟨"날짜 선후 모순", empId, "기준일(" ++ base.toIso ++ ") <= 중간정산일(" ++ idt.toIso ++ ")"⟩]
        else []
    | none => []
  let interimYearF : List Finding :=
    match interim with
    | some idt =>
        if idt.y = base.y then
          let ia : Option CellValue := colInterimAmt.map (rowGet row)
          if isNaOpt ia || eqZeroOpt ia then
            [⟨"중간정산액 누락", empId,
              "중간정산일(" ++ toString idt.y ++ "년)이 기준일과 같으나 중간정산액이 0원 혹은 누락됨"⟩]
          else []
        else []
    | none => []
  let dfmt (c : Option String) (label : String) : List Finding :=
    match c with
    | some cc =>
        match checkDateValidity (rowGet row cc) label with
        | some msg => [⟨"날짜 형식 오류", empId, msg⟩]
        | none => []
    | none => []
  let dateFmtFs := dfmt colBirth "생년월일" ++ dfmt colJoin "입사일" ++ dfmt colInterimDate "중간정산일"
  let salF : List Finding :=
    match colSalary.map (rowGet row) with
    | some (.int n) =>
        if n < 1700000 then
          [⟨"저임금 의심", empId, "기준급여 " ++ commaFmtInt n ++ "원 (170만 원 미만)"⟩] else []
    | some (.float q) =>
        if q < 1700000 then
          [⟨"저임금 의심", empId, "기준급여 " ++ commaFmt0f q ++ "원 (170만 원 미만)"⟩] else []
    | _ => []
  pure (reqF ++ negFs ++ execFs ++ ageF ++ ordJoinBirth ++ ordInterimJoin ++ ordBaseJoin ++
    ordBaseInterim ++ interimYearF ++ dateFmtFs ++ salF)

/-- The distinct duplicated ids of the id column, in first-occurrence order
(`employee_ids[employee_ids.duplicated(keep=False)].unique()`). -/
def dupIds (ids : List CellValue) : List CellValue :=
  dedupBy CellValue.cellEqB (ids.filter (fun v => 2 ≤ countB ids v))

/-- The intra-sheet duplicate block (lines 96–108): ids dropped of nulls only,
elements occurring ≥ 2 times, one finding per distinct id with its count. -/
def dupFindings (ids : List CellValue) : List Finding :=
  (dupIds ids).map
    (fun v => ⟨"사원번호 중복", normalizeEmployeeId v,
      "재직자명부 내 " ++ toString (countB ids v) ++ "건 중복 존재"⟩)

/-- The id column values of a sheet after `dropna()`. -/
def nonNullIds (data : List Row) (c : String) : List CellValue :=
  (data.map (fun r => rowGet r c)).filter (fun v => ¬ v.isNa)

/-- `_validate_active_employees`. -/
def validateActiveEmployees (base : Date) (data : List Row) : Except PyErr (List Finding) := do
  let cols := collectCols data
  let colEmp := findColumn cols "사원번호" <|> findColumn cols "사번"
  let colBirth := findColumn cols "생년월일"
  let colJoin := findColumn cols "입사일"
  let colSalary := findColumn cols "기준급여" <|> findColumn cols "급여"
  let colJob := findColumn cols "종업원 구분" <|> findColumn cols "구분"
  let colCurr := findColumn cols "당년도"
  let colNext := findColumn cols "차년도"
  let colInterimAmt := findColumn cols "중간정산액"
  let colInterimDate := findColumn cols "중간정산" <|> findColumn cols "사유발생일"
  let dupF : List Finding :=
    match colEmp with
    | some c => dupFindings (nonNullIds data c)
    | none => []
  let rowsF ← data.enum.mapM (fun p =>
    activeRowFindings base colEmp colBirth colJoin colSalary colJob colCurr colNext
      colInterimAmt colInterimDate p.1 p.2)
  pure (dupF ++ rowsF.flatten)

/-- `_validate_retired_employees`. -/
def validateRetiredEmployees (data : List Row) : List Finding :=
  let cols := collectCols data
  let colEmp := findColumn cols "사원번호"
  let colBirth := findColumn cols "생년월일"
  let colGender := findColumn cols "성별"
  (data.enum.map (fun p =>
    let empId : Option String :=
      match colEmp with
      | some c => normalizeEmployeeId (rowGet p.2 c)
      | none => some ("Row " ++ toString (p.1 + 1))
    requiredFindings empId p.2
      [(colEmp, "사원번호"), (colBirth, "생년월일"), (colGender, "성별")])).flatten

/-- `_validate_additional_employees`. -/
def validateAdditionalEmployees (data : List Row) (activeIds retiredIds : List String) :
    List Finding :=
  let cols := collectCols data
  let colEmp := findColumn cols "사원번호"
  let colBirth := findColumn cols "생년월일"
  let colGender := findColumn cols "성별"
  let colReason := findColumnExcl cols "사유" "발생일"
  (data.enum.map (fun p =>
    let row := p.2
    let empId : Option String :=
      match colEmp with
      | some c => normalizeEmployeeId (rowGet row c)
      | none => some ("Row " ++ toString (p.1 + 1))
    let reqF := requiredFindings empId row
      [(colEmp, "사원번호"), (colBirth, "생년월일"), (colGender, "성별"), (colReason, "사유")]
    let reason : Option CellValue := colReason.map (rowGet row)
    let employeeId : Option String := colEmp.bind (fun c => normalizeEmployeeId (rowGet row c))
    let reasonF : List Finding :=
      match reason, employeeId with
      | some rv, some eid =>
          if eid ≠ "" then
            match rv.toIntViaFloat with
            | some rn =>
                if rn = 1 then
                  (if ¬ activeIds.contains eid then
                    [⟨"명부 간 불일치", some eid, "사유 1번(관계사전입): 재직자명부에 없음 (재직자명부 포함 필수)"⟩]
                  else [])
                else if rn = 2 then
                  (if retiredIds.contains eid then
                    [⟨"명부 간 불일치", some eid, "사유 2번(관계사전출): 퇴직자명부와 중복"⟩]
                  else [])
                else if rn = 5 then
                  (if ¬ activeIds.contains eid then
                    [⟨"명부 간 불일치", some eid, "사유 5번(기타장기종업원): 기타장기재직자는 재직자명부에 포함되어야 합니다."⟩]
                  else [])
                else []
            | none => []
          else []
      | _, _ => []
    reqF ++ reasonF)).flatten

/-- The register scan of `_validate_retirement_benefit_summary` (lines
307–319): derived active headcount, retired headcount, and estimate sum;
each matching sheet overwrites the previous value, as in the source loop. -/
def scanSummary (allData : List (String × List Row)) : ℤ × ℤ × ℚ :=
  allData.foldl (fun st p =>
    if strContains p.1 "재직자" ∧ ¬ strContains p.1 "기타장기" then
      let cnt : ℤ := p.2.length
      match findColumn (collectCols p.2) "당년도" with
      | some c => (cnt, st.2.1, (p.2.map (fun r => ((rowGet r c).toNumeric).getD 0)).sum)
      | none => (cnt, st.2.1, st.2.2)
    else if strContains p.1 "퇴직자" then (st.1, (p.2.length : ℤ), st.2.2)
    else st) (0, 0, 0)

/-- Dictionary `.get` on the raw summary record (`data[0]`): `none` when the
key is absent (Python `None`). -/
def dictGet (r : Row) (k : String) : Option CellValue :=
  (r.find? (fun p => p.1 = k)).map Prod.snd

/-- One reported-headcount comparison of `_validate_retirement_benefit_summary`
(lines 322–334): `int(float(reported))` under `try/except`, exact comparison. -/
def summaryCountFinding (label : String) (reported : Option CellValue) (actual : ℤ) :
    List Finding :=
  match reported with
  | some v =>
      match v.toIntViaFloat with
      | some rep =>
          if rep ≠ actual then
            [⟨"합계 불일치", some "전체",
              label ++ ": 기초자료(" ++ commaFmtInt rep ++ "명) ≠ 명부(" ++ commaFmtInt actual ++ "명)"⟩]
          else []
      | none => []
  | none => []

/-- The reported-total comparison (lines 336–341): `float(reported)` under
`try/except`, 1-currency-unit absolute tolerance. -/
def summarySumFinding (reported : Option CellValue) (actual : ℚ) : List Finding :=
  match reported with
  | some v =>
      match v.toFloatExc with
      | some rep =>
          if 1 < |rep - actual| then
            [⟨"합계 불일치", some "전체",
              "추계액 합계: 기초자료(" ++ commaFmt0f rep ++ ") ≠ 명부합계(" ++ commaFmt0f actual ++ ")"⟩]
          else []
      | none => []
  | none => []

/-- `_validate_retirement_benefit_summary`. -/
def validateRetirementBenefitSummary (allData : List (String × List Row))
    (data : List Row) : List Finding :=
  match data with
  | [] => []
  | summary :: _ =>
    let s := scanSummary allData
    summaryCountFinding "재직자수" (dictGet summary "재직자수_합계") s.1 ++
      summaryCountFinding "퇴직자수" (dictGet summary "퇴직자수_합계") s.2.1 ++
      summarySumFinding (dictGet summary "퇴직금_추계액_합계") s.2.2

/-- An entry of the grouped result (`{"emp_id": ..., "detail": ...}`). -/
structure FindingOut where
  empId : Option String
  detail : String
deriving DecidableEq, Repr

/-- Per-sheet category map: insertion-ordered `dict[str, list]`. -/
abbrev CatMap := List (String × List FindingOut)

/-- The whole structured result: insertion-ordered `dict[str, dict]`. -/
abbrev StructRes := List (String × CatMap)

/-- Append a finding to a category list, creating the category at the end of
the dict if absent (Python dict insertion semantics). -/
def catAppend : CatMap → String → FindingOut → CatMap
  | [], c, f => [(c, [f])]
  | (c0, l) :: rest, c, f =>
      if c0 = c then (c0, l ++ [f]) :: rest else (c0, l) :: catAppend rest c f

/-- Ensure a sheet key exists (with an empty category dict). -/
def srEnsure : StructRes → String → StructRes
  | [], s => [(s, [])]
  | (s0, m) :: rest, s => if s0 = s then (s0, m) :: rest else (s0, m) :: srEnsure rest s

/-- Append a finding under `sheet → category`. -/
def srAppend : StructRes → String → String → FindingOut → StructRes
  | [], s, c, f => [(s, [(c, [f])])]
  | (s0, m) :: rest, s, c, f =>
      if s0 = s then (s0, catAppend m c f) :: rest else (s0, m) :: srAppend rest s c f

/-- Category lookup in a per-sheet map (`structured_results[sheet][cat]`,
empty when absent). -/
def catLookup (m : CatMap) (c : String) : List FindingOut :=
  (((m.find? (fun p => p.1 = c)).map Prod.snd).getD [])

/-- Sheet lookup in the structured result. -/
def srLookup (sr : StructRes) (s : String) : CatMap :=
  (((sr.find? (fun p => p.1 = s)).map Prod.snd).getD [])

/-- The id-collection pass of `validate` (lines 361–370): per sheet, the set
of non-empty normalized ids, merged into the active / retired id sets. -/
def gatherIds (allData : List (String × List Row)) : List String × List String :=
  allData.foldl (fun st p =>
    let cols := collectCols p.2
    match findColumn cols "사원번호" with
    | some c =>
        let ids := ((p.2.map (fun r => rowGet r c)).filterMap
          (fun v => if v.isNa then none else normalizeEmployeeId v)).filter (fun s => s ≠ "")
        if strContains p.1 "재직자" ∧ ¬ strContains p.1 "기타장기" then
          (dedupStr (st.1 ++ ids), st.2)
        else if strContains p.1 "퇴직자" then (st.1, dedupStr (st.2 ++ ids))
        else st
    | none => st) ([], [])

/-- Ascending insertion of a string (code-point order, Python `sorted`). -/
def insertAsc (x : String) : List String → List String
  | [] => [x]
  | y :: ys => if strLtB x y then x :: y :: ys else y :: insertAsc x ys

/-- Python `sorted` on strings. -/
def sortStr (l : List String) : List String := l.foldr insertAsc []

/-- The cross-register duplicate findings, in `sorted(duplicates)` order
(lines 379–380). -/
def crossDupFindings (dups : List String) : List FindingOut :=
  (sortStr dups).map (fun d => ⟨some d, "재직자명부와 퇴직자명부에 모두 존재"⟩)

/-- Grouping of a sheet's flat error list by category (lines 397–404). -/
def groupErrors (sr : StructRes) (sheet : String) (errs : List Finding) : StructRes :=
  errs.foldl (fun s2 e => srAppend s2 sheet e.category ⟨e.empId, e.detail⟩) sr

/-- `DataValidator.validate`. -/
def validate (base : Date) (allData : List (String × List Row)) : Except PyErr StructRes := do
  let ids := gatherIds allData
  let dups := ids.1.filter (fun s => ids.2.contains s)
  let sr0 : StructRes :=
    if dups ≠ [] then
      allData.foldl (fun sr p =>
        if (strContains p.1 "재직자" ∧ ¬ strContains p.1 "기타장기") ∨ strContains p.1 "퇴직자" then
          (crossDupFindings dups).foldl (fun s2 f => srAppend s2 p.1 "명부 간 중복" f) sr
        else sr) []
    else []
  allData.foldlM (fun sr p => do
    let sr := srEnsure sr p.1
    let errs ←
      if strContains p.1 "재직자" ∧ ¬ strContains p.1 "기타장기" then
        validateActiveEmployees base p.2
      else if strContains p.1 "퇴직자" then
        pure (validateRetiredEmployees p.2)
      else if strContains p.1 "추가" ∨ strContains p.1 "중간정산" then
        pure (validateAdditionalEmployees p.2 ids.1 ids.2)
      else if strContains p.1 "기초자료" ∧ strContains p.1 "퇴직급여" then
        pure (validateRetirementBenefitSummary allData p.2)
      else
        pure []
    pure (groupErrors sr p.1 errs)) sr0

end DataValidator

/-! ## `src/validatorcalculate.py` — `EstimateValidator` -/

namespace EstimateValidator

/-- `EstimateValidator._parse_date` (lines 36–45): strip and de-`".0"`;
8-character strings go through `strptime("%Y%m%d")` (any failure is caught
and yields `None`); otherwise `pd.to_datetime(val)` on the original value —
typed dates pass through, dash-form strings parse (modelled subset), and
other values are out of the modelled scope. -/
def parseDate (v : CellValue) : Option Date :=
  match v with
  | .null => none
  | _ =>
    let s := replaceDotZero (pyStrip v.pyStr.data)
    if s.length = 8 then strptimeYmd8 s
    else
      match v with
      | .date y m d => some ⟨y, m, d⟩
      | .str s2 => DataValidator.parseDashDate (pyStrip s2.data)
      | _ => none

/-- Add `k` calendar months to a date, clamping the day to the month length
(`dateutil` month arithmetic). -/
def addMonthsClamp (dt : Date) (k : ℤ) : Date :=
  let t := dt.y * 12 + (dt.m - 1) + k
  let y := t / 12
  let m := t % 12 + 1
  ⟨y, m, min dt.d (daysInMonth y m)⟩

/-- `relativedelta(e, s).years * 12 + .months`: the greatest whole number of
calendar months `m` with `s + m months ≤ e`. -/
def relMonths (e s : Date) : ℤ :=
  let m := (e.y - s.y) * 12 + (e.m - s.m)
  if e.toDays < (addMonthsClamp s m).toDays then m - 1 else m

/-- `relativedelta(e, s).days`: leftover days past the whole months. -/
def relDays (e s : Date) : ℤ := e.toDays - (addMonthsClamp s (relMonths e s)).toDays

/-- Service years (lines 72–86): zero unless the start date exists and is not
after the base date; `'일할'` (actual) counts days inclusively over 365,
`'월상'`/`'월사'` count calendar months rounded up/down over 12, and any other
method string falls back to the actual-day rule. -/
def serviceYears (method : String) (base : Date) (start : Option Date) : ℚ :=
  match start with
  | none => 0
  | some s =>
    if s.toDays ≤ base.toDays then
      if method = "일할" then ((base.toDays - s.toDays + 1 : ℤ) : ℚ) / 365
      else if method = "월상" then
        ((relMonths base s + (if 0 < relDays base s then 1 else 0) : ℤ) : ℚ) / 12
      else if method = "월사" then ((relMonths base s : ℤ) : ℚ) / 12
      else ((base.toDays - s.toDays + 1 : ℤ) : ℚ) / 365
    else 0

/-- Descending insertion by threshold (`sort_values(by="근속연수_이상",
ascending=False)`; the source's sort is unspecified on tied thresholds, and
every theorem below assumes distinct thresholds). -/
def insertDesc (x : ℚ × ℚ) : List (ℚ × ℚ) → List (ℚ × ℚ)
  | [] => [x]
  | y :: ys => if y.1 ≤ x.1 then x :: y :: ys else y :: insertDesc x ys

/-- Descending sort of the threshold table. -/
def sortDesc (l : List (ℚ × ℚ)) : List (ℚ × ℚ) := l.foldr insertDesc []

/-- `_get_progressive_multiplier`: first row of the descending-sorted table
whose threshold is ≤ the service years, else 1.0 (an empty/absent table also
returns 1.0). -/
def getProgressiveMultiplier (table : List (ℚ × ℚ)) (sy : ℚ) : ℚ :=
  match (sortDesc table).find? (fun p => decide (p.1 ≤ sy)) with
  | some p => p.2
  | none => 1

/-- Multiplier normalization (lines 90–94): NaN or 0 defaults to 1.0, and a
magnitude ≥ 10 is read as a percentage. -/
def normalizeMultiplier (v : Option ℚ) : ℚ :=
  match v with
  | none => 1
  | some q => if q = 0 then 1 else if 10 ≤ q then q / 100 else q

/-- Multiplier policy branch (lines 96–105): under a progressive table a
non-default normalized multiplier wins, otherwise the table decides; with no
table the normalized multiplier is used as-is. -/
def applyMultiplier (prog : Option (List (ℚ × ℚ))) (em sy : ℚ) : ℚ :=
  match prog with
  | some table => if em ≠ 1 then em else getProgressiveMultiplier table sy
  | none => em

/-- Leave deduction (lines 107–117): a positive year figure wins, else a
positive day figure divided by 365, else 0. -/
def leaveDeduction (lYears lDays : Option ℚ) : ℚ :=
  let fromDays : ℚ :=
    match lDays with
    | some d => if 0 < d then d / 365 else 0
    | none => 0
  match lYears with
  | some y => if 0 < y then y else fromDays
  | none => fromDays

/-- Error-rate computation (lines 123–127), before output rounding. -/
def errRateRaw (sys orig : ℚ) : ℚ :=
  if orig ≠ 0 then |sys - orig| / |orig| * 100 else 0

/-- The columns `validate_calculation` resolves once per run (lines 52–59). -/
structure Cols where
  emp : Option String
  joinDate : Option String
  interimDate : Option String
  salary : Option String
  multiplier : Option String
  leaveDays : Option String
  leaveYears : Option String
  original : Option String
deriving Repr

/-- Column resolution by keyword. -/
def resolveCols (cols : List String) : Cols :=
  ⟨findColumn cols "사원번호", findColumn cols "입사일자", findColumn cols "중간정산기준일",
   findColumn cols "기준급여", findColumn cols "적용배수", findColumn cols "휴직기간등차감",
   findColumn cols "휴직기간/연", findColumn cols "당년도"⟩

/-- `row.get(col)` where the column may be unresolved; `row.get(None)` is
Python `None`, which every use site treats exactly like NaN (`pd.isna`,
`pd.to_numeric` coercion), so it is folded into `null`. -/
def getC (row : Row) (c : Option String) : CellValue :=
  match c with
  | some cc => rowGet row cc
  | none => .null

/-- Effective start cell (line 68): the interim-settlement cell when not NA,
else the hire-date cell. -/
def effStartCell (c : Cols) (row : Row) : CellValue :=
  if ¬ (getC row c.interimDate).isNa then getC row c.interimDate else getC row c.joinDate

/-- The service years computed for one record (lines 63–86). -/
def serviceYearsOfRow (c : Cols) (base : Date) (method : String) (row : Row) : ℚ :=
  serviceYears method base (parseDate (effStartCell c row))

/-- Base salary of a record: `pd.to_numeric(..., errors='coerce') or 0`.
NaN is truthy in Python, so `NaN or 0` stays NaN (`none`); `0.0 or 0` gives
the same rational 0; nonzero values pass through. -/
def baseSalaryOfRow (c : Cols) (row : Row) : Option ℚ :=
  (getC row c.salary).toNumeric

/-- The record's multiplier after normalization and policy (lines 88–105). -/
def multiplierOfRow (c : Cols) (prog : Option (List (ℚ × ℚ))) (sy : ℚ) (row : Row) : ℚ :=
  applyMultiplier prog (normalizeMultiplier ((getC row c.multiplier).toNumeric)) sy

/-- The record's leave deduction in years (lines 107–117). -/
def leaveDeductionOfRow (c : Cols) (row : Row) : ℚ :=
  leaveDeduction ((getC row c.leaveYears).toNumeric) ((getC row c.leaveDays).toNumeric)

/-- The unrounded system estimate (line 121); NaN iff the base salary is NaN. -/
def sysEstimateOfRow (c : Cols) (base : Date) (method : String)
    (prog : Option (List (ℚ × ℚ))) (row : Row) : Option ℚ :=
  let sy := serviceYearsOfRow c base method row
  (baseSalaryOfRow c row).map (fun b =>
    b * max 0 (sy - leaveDeductionOfRow c row) * multiplierOfRow c prog sy row)

/-- The reported estimate (line 124, with the same `or 0` behavior). -/
def origOfRow (c : Cols) (row : Row) : Option ℚ :=
  (getC row c.original).toNumeric

/-- One reconciliation row as appended to `result_rows` (lines 129–138);
`none` in a numeric field models NaN. -/
structure ResultRow where
  empId : Option CellValue
  serviceYears : ℚ
  systemEstimate : Option ℚ
  originalEstimate : Option ℚ
  errorRate : Option ℚ
  baseSalary : Option ℚ
  multiplier : ℚ
  leaveDeduction : ℚ
deriving DecidableEq, Repr

/-- The per-record computation of `validate_calculation` (lines 63–138). -/
def computeRow (c : Cols) (base : Date) (method : String)
    (prog : Option (List (ℚ × ℚ))) (row : Row) : ResultRow :=
  let sy := serviceYearsOfRow c base method row
  let sysEst := sysEstimateOfRow c base method prog row
  let orig := origOfRow c row
  let err : Option ℚ :=
    match orig with
    | none => none
    | some o =>
        if o ≠ 0 then sysEst.map (fun s2 => pyRound 2 (errRateRaw s2 o))
        else some 0
  { empId := c.emp.map (rowGet row)
    serviceYears := pyRound 4 sy
    systemEstimate := sysEst.map (fun x => (pyRound 0 x))
    originalEstimate := orig
    errorRate := err
    baseSalary := baseSalaryOfRow c row
    multiplier := multiplierOfRow c prog sy row
    leaveDeduction := pyRound 4 (leaveDeductionOfRow c row) }

/-- `validate_calculation`: one reconciliation row per record, in register
order. -/
def validateCalculation (base : Date) (method : String)
    (prog : Option (List (ℚ × ℚ))) (data : List Row) : List ResultRow :=
  let c := resolveCols (collectCols data)
  data.map (computeRow c base method prog)

end EstimateValidator

/-! ## `src/backend/services/validator.py` — sheet duplicate check -/

namespace BackendValidator

/-- `_is_valid_emp_id`: not null and not a blank/`'nan'`/`'None'`/`'NaN'`
string form. -/
def isValidEmpId (v : CellValue) : Bool :=
  if v.isNa then false
  else
    let s := String.mk (pyStrip v.pyStr.data)
    ¬ (s = "" ∨ s = "nan" ∨ s = "None" ∨ s = "NaN")

/-- One duplicate error from `_check_duplicates_in_sheet`. -/
structure DupError where
  empId : String
  message : String
deriving DecidableEq, Repr

/-- The `emp_id` values of the valid rows (in order, with DataFrame index). -/
def validIdRows (rows : List Row) : List (ℕ × CellValue) :=
  (rows.enum.map (fun p => (p.1, rowGet p.2 "emp_id"))).filter (fun p => isValidEmpId p.2)

/-- The valid id rows marked by `duplicated(keep=False)`. -/
def dupRows (rows : List Row) : List (ℕ × CellValue) :=
  (validIdRows rows).filter (fun p => 2 ≤ countB ((validIdRows rows).map Prod.snd) p.2)

/-- The distinct duplicated valid ids, in first-occurrence order. -/
def dupIdVals (rows : List Row) : List CellValue :=
  dedupBy CellValue.cellEqB ((dupRows rows).map Prod.snd)

/-- `_check_duplicates_in_sheet`: duplicates among valid ids only, one error
per distinct duplicated id listing the offending spreadsheet rows. -/
def checkDuplicatesInSheet (rows : List Row) : List DupError :=
  if ¬ (collectCols rows).contains "emp_id" then []
  else
    (dupIdVals rows).map (fun v =>
      let idxs := ((dupRows rows).filter (fun p => CellValue.cellEqB p.2 v)).map
        (fun p => (p.1 : ℤ) + 2)
      ⟨v.pyStr, "사원번호 중복: " ++ v.pyStr ++ " (행: " ++ fmtIntList idxs ++ ")"⟩)

end BackendValidator

/-! ## `src/backend/services/data_mapper.py` — numeric date normalization -/

namespace DataMapper

/-- `_normalize_date_from_number`'s `convert_date`: `str(int(float(value)))`,
then slice an 8-digit string as `YYYYMMDD` or a 6-digit string as `YYMMDD`
with the `> 50 → 19xx, else 20xx` pivot; anything else is `None`. -/
def normalizeDateFromNumber (v : CellValue) : Option String :=
  if v.isNa ∨ v = .str "" then none
  else
    match v.toFloatExc with
    | none => none
    | some q =>
      let n : ℤ := q.num / (q.den : ℤ)
      let ds := (toString n).data
      if ds.length = 8 then
        some (String.mk (ds.take 4) ++ "-" ++ String.mk ((ds.drop 4).take 2) ++ "-" ++
          String.mk (ds.drop 6))
      else if ds.length = 6 then
        let yy := charsToNat (ds.take 2)
        some ((if 50 < yy then "19" else "20") ++ String.mk (ds.take 2) ++ "-" ++
          String.mk ((ds.drop 2).take 2) ++ "-" ++ String.mk (ds.drop 4))
      else none

end DataMapper

/-! ## Theorems -/

/-- A string is a fixed point of `normStr` when it is strip-stable and does
not end in `".0"`. -/
theorem normStr_fixpoint (l : List Char) (h1 : pyStrip l = l)
    (h2 : ['.', '0'].isSuffixOf l = false) : DataValidator.normStr ⟨l⟩ = ⟨l⟩ := by
  unfold DataValidator.normStr
  simp [h1, h2]

/-- C1, counterexample: for start 2020-01-01 and base 2025-01-01 under the
actual-day method, the estimator computes `service_years = 1828/365` (the day
difference is 1827 and the code adds one day before dividing), so the claim's
asserted value `1827/365 ≈ 5.0027` is false: `1828/365 ≠ 1827/365` (and
`1827/365 ≈ 5.0055` anyway). -/
theorem C1_actual_example_counterexample :
    EstimateValidator.serviceYearsOfRow
      (EstimateValidator.resolveCols (collectCols [[("입사일자", CellValue.str "20200101")]]))
      ⟨2025, 1, 1⟩ "일할" [("입사일자", CellValue.str "20200101")] = 1828 / 365 ∧
    (1828 / 365 : ℚ) ≠ 1827 / 365 := by
  refine ⟨by decide, by decide⟩

/-- C1, amended: under the actual-day method, for every record whose effective
start date (interim-settlement cell if not NA, else hire cell) parses to a date
not later than the base date, the computed service years equal
`((base − start).days + 1) / 365`; for start 2020-01-01 and base 2025-01-01
this is `1828/365 ≈ 5.0082`. -/
theorem C1_actual_service_years :
    (∀ (c : EstimateValidator.Cols) (row : Row) (base s : Date),
      EstimateValidator.parseDate (EstimateValidator.effStartCell c row) = some s →
      s.toDays ≤ base.toDays →
      EstimateValidator.serviceYearsOfRow c base "일할" row =
        ((base.toDays - s.toDays + 1 : ℤ) : ℚ) / 365) ∧
    EstimateValidator.serviceYearsOfRow
      (EstimateValidator.resolveCols (collectCols [[("입사일자", CellValue.str "20200101")]]))
      ⟨2025, 1, 1⟩ "일할" [("입사일자", CellValue.str "20200101")] = 1828 / 365 := by
  constructor
  · intro c row base s h hle
    unfold EstimateValidator.serviceYearsOfRow EstimateValidator.serviceYears
    rw [h]
    simp [hle]
  · decide

/-- C1, witness: the amended formula applied to the concrete hire date
2020-01-01 (an 8-digit cell) and base date 2025-01-01. -/
theorem C1_actual_service_years_witness :
    EstimateValidator.serviceYearsOfRow
      (EstimateValidator.resolveCols (collectCols [[("입사일자", CellValue.str "20200101")]]))
      ⟨2025, 1, 1⟩ "일할" [("입사일자", CellValue.str "20200101")] =
      ((Date.toDays ⟨2025, 1, 1⟩ - Date.toDays ⟨2020, 1, 1⟩ + 1 : ℤ) : ℚ) / 365 :=
  C1_actual_service_years.1 _ _ ⟨2025, 1, 1⟩ ⟨2020, 1, 1⟩ (by decide) (by decide)

/-- Inserting into a descending-sorted list permutes consing. -/
theorem insertDesc_perm (x : ℚ × ℚ) (l : List (ℚ × ℚ)) :
    (EstimateValidator.insertDesc x l).Perm (x :: l) := by
  induction l with
  | nil => simp [EstimateValidator.insertDesc]
  | cons y ys ih =>
    unfold EstimateValidator.insertDesc
    split
    · exact List.Perm.refl _
    · exact (ih.cons y).trans (List.Perm.swap x y ys)

/-- The descending sort is a permutation of its input. -/
theorem sortDesc_perm (l : List (ℚ × ℚ)) : (EstimateValidator.sortDesc l).Perm l := by
  induction l with
  | nil => simp [EstimateValidator.sortDesc]
  | cons y ys ih =>
    exact (insertDesc_perm y (EstimateValidator.sortDesc ys)).trans (ih.cons y)

/-- Insertion preserves the descending-threshold invariant. -/
theorem insertDesc_pairwise (x : ℚ × ℚ) (l : List (ℚ × ℚ))
    (h : l.Pairwise (fun a b => b.1 ≤ a.1)) :
    (EstimateValidator.insertDesc x l).Pairwise (fun a b => b.1 ≤ a.1) := by
  induction l with
  | nil => simp [EstimateValidator.insertDesc]
  | cons y ys ih =>
    unfold EstimateValidator.insertDesc
    rcases h with _ | ⟨hy, hys⟩
    split
    · refine List.Pairwise.cons ?_ (List.Pairwise.cons hy hys)
      intro z hz
      rcases List.mem_cons.mp hz with rfl | hz2
      · assumption
      · exact le_trans (hy z hz2) (by assumption)
    · refine List.Pairwise.cons ?_ (ih hys)
      intro z hz
      rcases List.mem_cons.mp ((insertDesc_perm x ys).mem_iff.mp hz) with rfl | hz2
      · exact le_of_not_le (by assumption)
      · exact hy z hz2

/-- The sorted table is descending in its thresholds. -/
theorem sortDesc_pairwise (l : List (ℚ × ℚ)) :
    (EstimateValidator.sortDesc l).Pairwise (fun a b => b.1 ≤ a.1) := by
  induction l with
  | nil => simp [EstimateValidator.sortDesc]
  | cons y ys ih => exact insertDesc_pairwise y _ ih

/-- On a descending list, `find?` of the qualifying predicate returns a
qualifying element whose threshold dominates every qualifying member. -/
theorem find_desc_first {sy : ℚ} :
    ∀ {l : List (ℚ × ℚ)}, l.Pairwise (fun a b => b.1 ≤ a.1) →
    ∀ {e : ℚ × ℚ}, e ∈ l → e.1 ≤ sy →
    ∃ p, l.find? (fun q => decide (q.1 ≤ sy)) = some p ∧ p.1 ≤ sy ∧ e.1 ≤ p.1 ∧ p ∈ l := by
  intro l
  induction l with
  | nil => intro _ e he; cases he
  | cons h t ih =>
    intro hp e he hq
    rcases hp with _ | ⟨hh, ht⟩
    by_cases hhs : h.1 ≤ sy
    · refine ⟨h, ?_, hhs, ?_, List.mem_cons_self h t⟩
      · simp [List.find?_cons, hhs]
      · rcases List.mem_cons.mp he with rfl | he2
        · exact le_refl _
        · exact hh e he2
    · have he2 : e ∈ t := by
        rcases List.mem_cons.mp he with rfl | he3
        · exact absurd hq hhs
        · exact he3
      obtain ⟨p, hf, hps, hep, hpm⟩ := ih ht he2 hq
      refine ⟨p, ?_, hps, hep, List.mem_cons_of_mem h hpm⟩
      simp [List.find?_cons, hhs, hf]

/-- In a table with pairwise-distinct thresholds, equal thresholds force
equal entries. -/
theorem eq_of_same_key {l : List (ℚ × ℚ)} (hd : l.Pairwise (fun a b => a.1 ≠ b.1))
    {p e : ℚ × ℚ} (hp : p ∈ l) (he : e ∈ l) (hk : p.1 = e.1) : p = e := by
  induction l with
  | nil => cases hp
  | cons h t ih =>
    rcases hd with _ | ⟨hh, ht⟩
    rcases List.mem_cons.mp hp with rfl | hp2
    · rcases List.mem_cons.mp he with rfl | he2
      · rfl
      · exact absurd hk (hh e he2)
    · rcases List.mem_cons.mp he with rfl | he2
      · exact absurd hk.symm (hh p hp2)
      · exact ih ht hp2 he2

/-- C2: under the progressive policy, when the normalized multiplier is the
default 1.0 the table decides; for a table with distinct thresholds the
selected multiplier belongs to the entry with the greatest `min_tenure_years`
that is ≤ `service_years`, defaulting to 1.0 when no threshold qualifies;
a normalized multiplier ≠ 1.0 is used as-is; and on the table
`[(0,1.0),(5,1.2),(10,1.5)]` the selections at 7, 10.0 and 4.999 are 1.2,
1.5 and 1.0. -/
theorem C2_progressive_multiplier :
    (∀ (table : List (ℚ × ℚ)) (sy : ℚ) (e : ℚ × ℚ),
       table.Pairwise (fun a b => a.1 ≠ b.1) → e ∈ table → e.1 ≤ sy →
       (∀ f2 ∈ table, f2.1 ≤ sy → f2.1 ≤ e.1) →
       EstimateValidator.getProgressiveMultiplier table sy = e.2) ∧
    (∀ (table : List (ℚ × ℚ)) (sy : ℚ), (∀ f2 ∈ table, ¬ f2.1 ≤ sy) →
       EstimateValidator.getProgressiveMultiplier table sy = 1) ∧
    (∀ (table : List (ℚ × ℚ)) (em sy : ℚ), em ≠ 1 →
       EstimateValidator.applyMultiplier (some table) em sy = em) ∧
    (∀ (table : List (ℚ × ℚ)) (sy : ℚ),
       EstimateValidator.applyMultiplier (some table) 1 sy =
         EstimateValidator.getProgressiveMultiplier table sy) ∧
    EstimateValidator.getProgressiveMultiplier [(0, 1), (5, 6/5), (10, 3/2)] 7 = 6/5 ∧
    EstimateValidator.getProgressiveMultiplier [(0, 1), (5, 6/5), (10, 3/2)] 10 = 3/2 ∧
    EstimateValidator.getProgressiveMultiplier [(0, 1), (5, 6/5), (10, 3/2)] (4999/1000) = 1 := by
  refine ⟨?_, ?_, ?_, ?_, by decide, by decide, by decide⟩
  · intro table sy e hd he hq hmax
    have hperm := sortDesc_perm table
    have hp := sortDesc_pairwise table
    obtain ⟨p, hf, hps, hep, hpm⟩ := find_desc_first hp (hperm.mem_iff.mpr he) hq
    have hpt : p ∈ table := hperm.mem_iff.mp hpm
    have hkey : p.1 = e.1 := le_antisymm (hmax p hpt hps) hep
    have hpe : p = e := eq_of_same_key hd hpt he hkey
    unfold EstimateValidator.getProgressiveMultiplier
    rw [hf, hpe]
  · intro table sy hnone
    unfold EstimateValidator.getProgressiveMultiplier
    have hn : (EstimateValidator.sortDesc table).find? (fun q => decide (q.1 ≤ sy)) = none := by
      rw [List.find?_eq_none]
      intro x hx
      simp only [decide_eq_true_eq]
      exact hnone x ((sortDesc_perm table).mem_iff.mp hx)
    rw [hn]
  · intro table em sy hne
    simp [EstimateValidator.applyMultiplier, hne]
  · intro table sy
    simp [EstimateValidator.applyMultiplier]

/-- C2, witness: the maximal-threshold selection applied to the concrete table
`[(0,1.0),(5,1.2),(10,1.5)]` at `service_years = 7` with entry `(5, 1.2)`. -/
theorem C2_progressive_multiplier_witness :
    EstimateValidator.getProgressiveMultiplier [(0, 1), (5, 6/5), (10, 3/2)] 7 = (6/5 : ℚ) :=
  C2_progressive_multiplier.1 [(0, 1), (5, 6/5), (10, 3/2)] 7 (5, 6/5)
    (by decide) (by decide) (by decide) (by decide)

/-- C3, counterexample: a record with base salary 2555, hire date equal to the
base date (service years `1/365`), and reported estimate 3 yields an unrounded
error rate `|7 − 3|/|3|·100 = 400/3`, but the emitted reconciliation row stores
`round(error_rate, 2) = 133.33 = 13333/100 ≠ 400/3`, so the row's
`error_rate_pct` does not equal `|c − r|/|r|·100` exactly. -/
theorem C3_error_rate_counterexample :
    (EstimateValidator.computeRow
      (EstimateValidator.resolveCols (collectCols
        [[("입사일자", CellValue.str "20250101"), ("기준급여", CellValue.int 2555),
          ("당년도", CellValue.int 3)]]))
      ⟨2025, 1, 1⟩ "일할" none
      [("입사일자", CellValue.str "20250101"), ("기준급여", CellValue.int 2555),
       ("당년도", CellValue.int 3)]).errorRate = some (13333 / 100) ∧
    (EstimateValidator.computeRow
      (EstimateValidator.resolveCols (collectCols
        [[("입사일자", CellValue.str "20250101"), ("기준급여", CellValue.int 2555),
          ("당년도", CellValue.int 3)]]))
      ⟨2025, 1, 1⟩ "일할" none
      [("입사일자", CellValue.str "20250101"), ("기준급여", CellValue.int 2555),
       ("당년도", CellValue.int 3)]).systemEstimate = some 7 ∧
    (EstimateValidator.computeRow
      (EstimateValidator.resolveCols (collectCols
        [[("입사일자", CellValue.str "20250101"), ("기준급여", CellValue.int 2555),
          ("당년도", CellValue.int 3)]]))
      ⟨2025, 1, 1⟩ "일할" none
      [("입사일자", CellValue.str "20250101"), ("기준급여", CellValue.int 2555),
       ("당년도", CellValue.int 3)]).originalEstimate = some 3 ∧
    (13333 / 100 : ℚ) ≠ |7 - 3| / |3| * 100 := by
  refine ⟨by decide, by decide, by decide, by decide⟩

/-- C3, amended: for every record whose reported estimate is a number `o`, the
emitted row's error rate is exactly 0 when `o = 0` (no division is performed),
and otherwise equals the 2-decimal half-even rounding of `|s − o|/|o|·100`
where `s` is the unrounded computed estimate; the computation is total, so the
zero-denominator case can never raise. -/
theorem C3_error_rate :
    ∀ (c : EstimateValidator.Cols) (base : Date) (method : String)
      (prog : Option (List (ℚ × ℚ))) (row : Row) (o : ℚ),
      EstimateValidator.origOfRow c row = some o →
      ((o = 0 → (EstimateValidator.computeRow c base method prog row).errorRate = some 0) ∧
       (o ≠ 0 → ∀ s2, EstimateValidator.sysEstimateOfRow c base method prog row = some s2 →
         (EstimateValidator.computeRow c base method prog row).errorRate =
           some (pyRound 2 (|s2 - o| / |o| * 100)))) := by
  intro c base method prog row o ho
  constructor
  · intro h0
    unfold EstimateValidator.computeRow
    rw [ho]
    simp [h0]
  · intro h0 s2 hs
    unfold EstimateValidator.computeRow
    rw [ho]
    simp only [h0, if_true, hs, if_neg]
    simp [EstimateValidator.errRateRaw, h0]

/-- C3, witness: the amended statement applied to the concrete record with
computed estimate 7 and reported estimate 3. -/
theorem C3_error_rate_witness :
    (EstimateValidator.computeRow
      (EstimateValidator.resolveCols (collectCols
        [[("입사일자", CellValue.str "20250101"), ("기준급여", CellValue.int 2555),
          ("당년도", CellValue.int 3)]]))
      ⟨2025, 1, 1⟩ "일할" none
      [("입사일자", CellValue.str "20250101"), ("기준급여", CellValue.int 2555),
       ("당년도", CellValue.int 3)]).errorRate = some (pyRound 2 (|7 - 3| / |3| * 100)) :=
  (C3_error_rate _ ⟨2025, 1, 1⟩ "일할" none _ 3 (by decide)).2 (by decide) 7 (by decide)

/-- C4: the claim says the Rule Validator never raises on malformed field
values, but an Active record with employee-type code 3 whose current-year
estimate is the string `"abc"` and next-year estimate the number 100 reaches
the unguarded comparison `curr_estimate < next_estimate` (validator.py line
157), which raises `TypeError` in Python 3 and aborts the whole batch. -/
theorem C4_typeerror_on_mixed_types :
    DataValidator.validateActiveEmployees ⟨2025, 1, 1⟩
      [[("구분", CellValue.int 3), ("당년도", CellValue.str "abc"),
        ("차년도", CellValue.int 100), ("사원번호", CellValue.str "E1")]] =
      Except.error PyErr.typeError := by decide

/-- C5, counterexample: the main validator's duplicate detection only applies
`dropna()`, so a register with two blank-string ids flags `""` as an
intra-sheet duplicate even though `""` is not a valid id. -/
theorem C5_blank_id_flagged_counterexample :
    DataValidator.validateActiveEmployees ⟨2025, 1, 1⟩
      [[("사원번호", CellValue.str "")], [("사원번호", CellValue.str "")]] =
      Except.ok
        [⟨"사원번호 중복", some "", "재직자명부 내 2건 중복 존재"⟩,
         ⟨"필수값 누락", some "", "사원번호 데이터 없음"⟩,
         ⟨"필수값 누락", some "", "사원번호 데이터 없음"⟩] ∧
    BackendValidator.isValidEmpId (CellValue.str "") = false := by
  refine ⟨by decide, by decide⟩

/-- pandas equality on cells is reflexive. -/
theorem cellEqB_refl (a : CellValue) : CellValue.cellEqB a a = true := by
  cases a <;> simp [CellValue.cellEqB]

/-- pandas equality on cells is symmetric. -/
theorem cellEqB_symm {a b : CellValue} (h : CellValue.cellEqB a b = true) :
    CellValue.cellEqB b a = true := by
  cases a <;> cases b <;> simp_all [CellValue.cellEqB]

/-- pandas equality on cells is transitive. -/
theorem cellEqB_trans {a b c : CellValue} (h1 : CellValue.cellEqB a b = true)
    (h2 : CellValue.cellEqB b c = true) : CellValue.cellEqB a c = true := by
  cases a <;> cases b <;> cases c <;> simp_all [CellValue.cellEqB]

/-- Equal cells are equal to the same cells. -/
theorem cellEqB_congr_right {a b : CellValue} (h : CellValue.cellEqB a b = true)
    (x : CellValue) : CellValue.cellEqB x a = CellValue.cellEqB x b := by
  cases hxa : CellValue.cellEqB x a <;> cases hxb : CellValue.cellEqB x b
  · rfl
  · exact absurd (cellEqB_trans hxb (cellEqB_symm h)) (by simp [hxa])
  · exact absurd (cellEqB_trans hxa h) (by simp [hxb])
  · rfl

/-- Occurrence counts agree on pandas-equal values. -/
theorem countB_congr {a b : CellValue} (h : CellValue.cellEqB a b = true)
    (l : List CellValue) : countB l a = countB l b := by
  unfold countB
  congr 1
  apply List.filter_congr
  intro x _
  exact cellEqB_congr_right h x

/-- `memB` unfolded to an existential. -/
theorem memB_exists {l : List CellValue} {v : CellValue} :
    memB l v = true ↔ ∃ a ∈ l, CellValue.cellEqB a v = true := by
  simp [memB, List.any_eq_true]

/-- A value with two occurrences occurs. -/
theorem countB_pos_of_two_le {l : List CellValue} {v : CellValue}
    (h : 2 ≤ countB l v) : ∃ a ∈ l, CellValue.cellEqB a v = true := by
  unfold countB at h
  have hne : l.filter (fun a => CellValue.cellEqB a v) ≠ [] := by
    intro hh
    rw [hh] at h
    simp at h
  obtain ⟨a, ha⟩ := List.exists_mem_of_ne_nil _ hne
  have hm := List.mem_filter.mp ha
  exact ⟨a, hm.1, hm.2⟩

/-- Membership in the `duplicated(keep=False)` sublist is exactly having
occurrence count ≥ 2. -/
theorem memB_dup_filter (l : List CellValue) (v : CellValue) :
    memB (l.filter (fun w => decide (2 ≤ countB l w))) v = true ↔ 2 ≤ countB l v := by
  constructor
  · intro h
    obtain ⟨a, ham, hav⟩ := memB_exists.mp h
    have hm := List.mem_filter.mp ham
    have hc : 2 ≤ countB l a := by simpa using hm.2
    rwa [countB_congr hav l] at hc
  · intro h
    obtain ⟨a, ham, hav⟩ := countB_pos_of_two_le h
    refine memB_exists.mpr ⟨a, List.mem_filter.mpr ⟨ham, ?_⟩, hav⟩
    simp
    rwa [countB_congr hav l]

/-- An element kept by the dedup accumulator pass was never in `seen`. -/
theorem mem_dedupByAux_not_seen :
    ∀ (l seen : List CellValue) (z : CellValue), z ∈ dedupByAux CellValue.cellEqB seen l →
      seen.any (fun b => CellValue.cellEqB b z) = false := by
  intro l
  induction l with
  | nil => intro seen z hz; cases hz
  | cons a rest ih =>
    intro seen z hz
    unfold dedupByAux at hz
    split at hz
    · exact ih seen z hz
    · rcases List.mem_cons.mp hz with rfl | hz2
      · simp only [List.any_eq_false]
        intro b hb
        have hs : seen.any (fun b => CellValue.cellEqB b z) = false := by
          simp only [Bool.not_eq_true] at *
          assumption
        exact (List.any_eq_false.mp hs) b hb
      · have hrec := ih (a :: seen) z hz2
        simp only [List.any_cons, Bool.or_eq_false_iff] at hrec
        simp only [List.any_eq_false]
        intro b hb
        exact (List.any_eq_false.mp hrec.2) b hb

/-- The deduplicated list is pairwise-distinct up to pandas equality: one
entry per duplicated id. -/
theorem dedupByAux_pairwise :
    ∀ (l seen : List CellValue),
      (dedupByAux CellValue.cellEqB seen l).Pairwise
        (fun a b => CellValue.cellEqB a b = false) := by
  intro l
  induction l with
  | nil => intro seen; simp [dedupByAux]
  | cons a rest ih =>
    intro seen
    unfold dedupByAux
    split
    · exact ih seen
    · refine List.Pairwise.cons ?_ (ih (a :: seen))
      intro z hz
      have hns := mem_dedupByAux_not_seen rest (a :: seen) z hz
      simp only [List.any_cons, Bool.or_eq_false_iff] at hns
      cases hza : CellValue.cellEqB a z
      · rfl
      · exact absurd hza (by simp [hns.1])

/-- Membership after deduplication, with the accumulator tracked. -/
theorem memB_dedupByAux :
    ∀ (l seen : List CellValue) (v : CellValue),
      memB (dedupByAux CellValue.cellEqB seen l) v =
        (memB l v && !(memB seen v)) := by
  intro l
  induction l with
  | nil => intro seen v; simp [dedupByAux, memB]
  | cons a rest ih =>
    intro seen v
    unfold dedupByAux
    split
    · rename_i hskip
      rw [ih seen v]
      cases hav : CellValue.cellEqB a v
      · have h1 : memB (a :: rest) v = memB rest v := by simp [memB, List.any_cons, hav]
        rw [h1]
      · have hseen : memB seen v = true := by
          obtain ⟨b, hb, hba⟩ := List.any_eq_true.mp hskip
          refine memB_exists.mpr ⟨b, hb, ?_⟩
          exact cellEqB_trans (by simpa using hba) hav
        rw [hseen]
        simp
    · rename_i hkeep
      cases hav : CellValue.cellEqB a v
      · have h1 : memB (a :: rest) v = memB rest v := by simp [memB, List.any_cons, hav]
        have h2 : memB (a :: seen) v = memB seen v := by simp [memB, List.any_cons, hav]
        have h3 : memB (a :: dedupByAux CellValue.cellEqB (a :: seen) rest) v =
            memB (dedupByAux CellValue.cellEqB (a :: seen) rest) v := by
          simp [memB, List.any_cons, hav]
        rw [h3, ih (a :: seen) v, h1, h2]
      · have hseen : memB seen v = false := by
          cases hs : memB seen v
          · rfl
          · exfalso
            obtain ⟨b, hb, hbv⟩ := memB_exists.mp hs
            have hba : CellValue.cellEqB b a = true := cellEqB_trans hbv (cellEqB_symm hav)
            exact hkeep (List.any_eq_true.mpr ⟨b, hb, by simpa using hba⟩)
        have h1 : memB (a :: rest) v = true := by simp [memB, List.any_cons, hav]
        have h2 : memB (a :: dedupByAux CellValue.cellEqB (a :: seen) rest) v = true := by
          simp [memB, List.any_cons, hav]
        rw [h1, h2, hseen]
        simp

/-- Deduplication preserves membership up to pandas equality. -/
theorem memB_dedupBy (l : List CellValue) (v : CellValue) :
    memB (dedupBy CellValue.cellEqB l) v = memB l v := by
  rw [dedupBy, memB_dedupByAux]
  simp [memB]

/-- Filtering pairs by a condition on the second component commutes with
projecting it. -/
theorem map_snd_filter_count (pairs : List (ℕ × CellValue)) (vals : List CellValue) :
    ((pairs.filter (fun p => decide (2 ≤ countB vals p.2))).map Prod.snd) =
      (pairs.map Prod.snd).filter (fun a => decide (2 ≤ countB vals a)) := by
  induction pairs with
  | nil => rfl
  | cons p ps ih =>
    by_cases h : 2 ≤ countB vals p.2 <;> simp [List.filter_cons, h, ih]

/-- C5, amended: in the main validator a value is flagged as an intra-sheet
duplicate exactly when it occurs ≥ 2 times among the register's *non-null*
ids (blank and `'nan'`/`'None'` strings included), while in the backend sheet
checker a value is flagged exactly when it occurs ≥ 2 times among the *valid*
ids (null, blank and `'nan'`/`'None'`/`'NaN'` forms dropped); in both, the
flagged list carries exactly one entry per duplicated id. -/
theorem C5_duplicate_sets :
    (∀ (data : List Row) (c : String) (v : CellValue),
       memB (DataValidator.dupIds (DataValidator.nonNullIds data c)) v = true ↔
         2 ≤ countB (DataValidator.nonNullIds data c) v) ∧
    (∀ (data : List Row) (c : String),
       (DataValidator.dupIds (DataValidator.nonNullIds data c)).Pairwise
         (fun a b => CellValue.cellEqB a b = false)) ∧
    (∀ (rows : List Row) (v : CellValue),
       memB (BackendValidator.dupIdVals rows) v = true ↔
         2 ≤ countB ((BackendValidator.validIdRows rows).map Prod.snd) v) ∧
    (∀ rows : List Row,
       (BackendValidator.dupIdVals rows).Pairwise (fun a b => CellValue.cellEqB a b = false)) := by
  refine ⟨?_, ?_, ?_, ?_⟩
  · intro data c v
    unfold DataValidator.dupIds
    rw [memB_dedupBy]
    exact memB_dup_filter _ v
  · intro data c
    unfold DataValidator.dupIds dedupBy
    exact dedupByAux_pairwise _ []
  · intro rows v
    unfold BackendValidator.dupIdVals BackendValidator.dupRows
    rw [map_snd_filter_count, memB_dedupBy]
    exact memB_dup_filter _ v
  · intro rows
    unfold BackendValidator.dupIdVals dedupBy
    exact dedupByAux_pairwise _ []

/-- C6, counterexample: the backend date mapper turns the 6-digit value
`500101` into `"2050-01-01"` because its pivot test is `> 50`, while the main
validator's parser (pivot `≥ 50 → 19xx`) yields 1950-01-01; so "every date
normalizer maps YY = 50 to 1950" is false. -/
theorem C6_pivot_counterexample :
    DataMapper.normalizeDateFromNumber (CellValue.int 500101) = some "2050-01-01" ∧
    DataValidator.parseDate (CellValue.str "500101") = some ⟨1950, 1, 1⟩ ∧
    ("2050-01-01" : String) ≠ "1950-01-01" := by
  refine ⟨by decide, by decide, by decide⟩

/-- Digits are not whitespace. -/
theorem digit_not_whitespace (c : Char) (h : c.isDigit = true) : c.isWhitespace = false := by
  by_contra hw
  simp only [Bool.not_eq_false] at hw
  simp [Char.isWhitespace] at hw
  simp [Char.isDigit] at h
  rcases hw with ((rfl | rfl) | rfl) | rfl <;> revert h <;> decide

/-- Dropping leading whitespace from a whitespace-free list is the identity. -/
theorem dropWhile_ws_eq_self {l : List Char} (h : ∀ c ∈ l, c.isWhitespace = false) :
    l.dropWhile Char.isWhitespace = l := by
  cases l with
  | nil => rfl
  | cons c cs =>
    rw [List.dropWhile_cons]
    simp [h c (List.mem_cons_self c cs)]

/-- `strip` fixes all-digit strings. -/
theorem pyStrip_digits {l : List Char} (h : allDigits l = true) : pyStrip l = l := by
  have h1 : ∀ c ∈ l, c.isWhitespace = false := fun c hc =>
    digit_not_whitespace c (List.all_eq_true.mp h c hc)
  unfold pyStrip
  rw [dropWhile_ws_eq_self h1]
  rw [dropWhile_ws_eq_self (fun c hc => h1 c (List.mem_reverse.mp hc))]
  exact List.reverse_reverse l

/-- `.replace(".0", "")` fixes all-digit strings. -/
theorem replaceDotZero_digits : ∀ (l : List Char), allDigits l = true →
    replaceDotZero l = l := by
  intro l
  induction l with
  | nil => intro _; rfl
  | cons c rest ih =>
    intro h
    simp only [allDigits, List.all_cons, Bool.and_eq_true] at h
    rw [replaceDotZero.eq_def]
    split
    · rename_i heq
      exact absurd heq (List.cons_ne_nil c rest)
    · rename_i heq
      injection heq with h1 h2
      subst h1
      exact absurd h.1 (by decide)
    · rename_i hne heq
      injection heq with h1 h2
      subst h1
      subst h2
      have hr : replaceDotZero rest = rest := ih (by simp [allDigits, h.2])
      rw [hr]

/-- Code-point bounds of an ASCII digit. -/
theorem digit_toNat_bounds {c : Char} (h : c.isDigit = true) :
    48 ≤ c.toNat ∧ c.toNat ≤ 57 := by
  simp [Char.isDigit] at h
  obtain ⟨h1, h2⟩ := h
  exact ⟨h1, h2⟩

/-- Accumulator bound for the digit-folding value function. -/
theorem charsToNat_aux_lt :
    ∀ (l : List Char) (acc : ℕ), allDigits l = true →
      l.foldl (fun a c => 10 * a + (c.toNat - 48)) acc < (acc + 1) * 10 ^ l.length := by
  intro l
  induction l with
  | nil => intro acc _; simp
  | cons c cs ih =>
    intro acc h
    simp only [allDigits, List.all_cons, Bool.and_eq_true] at h
    have hd : c.toNat - 48 ≤ 9 := by
      have h2 := digit_toNat_bounds h.1
      omega
    have hstep := ih (10 * acc + (c.toNat - 48)) (by simp [allDigits, h.2])
    calc (c :: cs).foldl (fun a c => 10 * a + (c.toNat - 48)) acc
        = cs.foldl (fun a c => 10 * a + (c.toNat - 48)) (10 * acc + (c.toNat - 48)) := rfl
      _ < (10 * acc + (c.toNat - 48) + 1) * 10 ^ cs.length := hstep
      _ ≤ ((acc + 1) * 10) * 10 ^ cs.length := by
          apply Nat.mul_le_mul_right
          omega
      _ = (acc + 1) * 10 ^ (c :: cs).length := by
          rw [List.length_cons, pow_succ]
          ring

/-- An n-digit string decodes below 10^n. -/
theorem charsToNat_lt {l : List Char} (h : allDigits l = true) :
    charsToNat l < 10 ^ l.length := by
  have hb := charsToNat_aux_lt l 0 h
  simpa [charsToNat] using hb

/-- The pivoted year renders as four digits that decode back to it. -/
theorem pivotYearDigits :
    ∀ yy : ℕ, yy < 100 →
      ((toString (if yy < 50 then 2000 + yy else 1900 + yy)).data.length = 4 ∧
       allDigits ((toString (if yy < 50 then 2000 + yy else 1900 + yy)).data) = true ∧
       charsToNat ((toString (if yy < 50 then 2000 + yy else 1900 + yy)).data) =
         (if yy < 50 then 2000 + yy else 1900 + yy)) := by decide

/-- Digit-ness restricts to prefixes. -/
theorem allDigits_take {l : List Char} (n : ℕ) (h : allDigits l = true) :
    allDigits (l.take n) = true := by
  rw [allDigits, List.all_eq_true] at h ⊢
  exact fun c hc => h c (List.take_subset n l hc)

/-- A successful `strptime("%Y%m%d")` takes its year from the first four
digits. -/
theorem strptime_year {l : List Char} {dt : Date} (h8 : strptimeYmd8 l = some dt) :
    dt.y = charsToNat (l.take 4) := by
  unfold strptimeYmd8 at h8
  split at h8
  · replace h8 :
        (if validDate (charsToNat (l.take 4)) (charsToNat ((l.drop 4).take 2))
            (charsToNat (l.drop 6)) = true then
          some (⟨charsToNat (l.take 4), charsToNat ((l.drop 4).take 2),
            charsToNat (l.drop 6)⟩ : Date)
        else none) = some dt := h8
    split at h8
    · injection h8 with hh
      subst hh
      rfl
    · cases h8
  · cases h8

/-- C6, amended: the main validator's 6-digit parser applies pivot 50 with
`yy < 50 → 2000 + yy` and `yy ≥ 50 → 1900 + yy` (so YY = 50 yields 1950),
for every 6-digit string that parses; the backend date mapper instead tests
`yy > 50`, prefixing `"19"` only for `yy > 50` and `"20"` otherwise, so
YY = 50 yields 2050 there. -/
theorem C6_pivot_year :
    (∀ (s : List Char) (dt : Date), s.length = 6 → allDigits s = true →
       DataValidator.parseDate (CellValue.str (String.mk s)) = some dt →
       dt.y = (if charsToNat (s.take 2) < 50 then (2000 + (charsToNat (s.take 2) : ℤ))
               else (1900 + (charsToNat (s.take 2) : ℤ)))) ∧
    (∀ yy : ℕ, yy < 100 → 10 ≤ yy →
       DataMapper.normalizeDateFromNumber (CellValue.int (yy * 10000 + 101)) =
         some ((if 50 < yy then "19" else "20") ++
           String.mk ((toString (yy * 10000 + 101)).data.take 2) ++ "-01-01")) := by
  constructor
  · intro s dt hlen hdig hparse
    unfold DataValidator.parseDate at hparse
    simp only [CellValue.pyStr] at hparse
    rw [pyStrip_digits hdig, replaceDotZero_digits s hdig] at hparse
    have hne : s ≠ [] := by
      intro hh
      rw [hh] at hlen
      simp at hlen
    rw [if_pos ⟨hne, hdig⟩] at hparse
    rw [if_neg (by rw [hlen]; omega)] at hparse
    rw [if_pos hlen] at hparse
    have hyy : charsToNat (s.take 2) < 100 := by
      have hb := charsToNat_lt (allDigits_take 2 hdig)
      rwa [List.length_take, hlen, show min 2 6 = 2 from rfl] at hb
    have hpd := pivotYearDigits (charsToNat (s.take 2)) hyy
    have hy := strptime_year hparse
    rw [List.take_append_of_le_length (by rw [hpd.1])] at hy
    rw [show (4 : ℕ) = ((toString (if charsToNat (s.take 2) < 50
        then 2000 + charsToNat (s.take 2) else 1900 + charsToNat (s.take 2))).data).length
        from (hpd.1).symm, List.take_length] at hy
    rw [hpd.2.2] at hy
    rw [hy]
    split <;> simp
  · intro yy h1 h2
    revert h2
    revert yy
    decide

/-- C6, witness: the amended pivot applied to `"500101"` in the validator
(year 1950) and to `500101` in the backend mapper (string `"2050-01-01"`). -/
theorem C6_pivot_year_witness :
    ((⟨1950, 1, 1⟩ : Date).y =
      (if charsToNat (("500101" : String).data.take 2) < 50 then
        (2000 + (charsToNat (("500101" : String).data.take 2) : ℤ))
       else (1900 + (charsToNat (("500101" : String).data.take 2) : ℤ)))) ∧
    DataMapper.normalizeDateFromNumber (CellValue.int (50 * 10000 + 101)) =
      some ((if 50 < 50 then "19" else "20") ++
        String.mk ((toString (50 * 10000 + 101)).data.take 2) ++ "-01-01") :=
  ⟨C6_pivot_year.1 ("500101" : String).data ⟨1950, 1, 1⟩ (by decide) (by decide) (by decide),
   C6_pivot_year.2 50 (by decide) (by decide)⟩

/-- C7, counterexample: employee-id normalization is not idempotent — the
string `"1.0.0"` normalizes to `"1.0"`, which normalizes again to `"1"`. -/
theorem C7_idempotence_counterexample :
    DataValidator.normalizeEmployeeId (CellValue.str "1.0.0") = some "1.0" ∧
    DataValidator.normalizeEmployeeId (CellValue.str "1.0") = some "1" ∧
    ("1.0" : String) ≠ "1" := by
  refine ⟨by decide, by decide, by decide⟩

/-- C7, amended: normalization is idempotent on every input whose normalized
form is strip-stable and does not itself end in `".0"` — in particular on
every already-normalized id; only inputs whose stripped form ends in `".0.0"`
or hides whitespace before a trailing `".0"` are changed by a second pass. -/
theorem C7_idempotent_when_stable :
    ∀ s : String,
      pyStrip (DataValidator.normStr s).data = (DataValidator.normStr s).data →
      ¬ ['.', '0'].isSuffixOf (DataValidator.normStr s).data →
      DataValidator.normStr (DataValidator.normStr s) = DataValidator.normStr s := by
  intro s h1 h2
  exact normStr_fixpoint (DataValidator.normStr s).data h1
    (by simp only [Bool.not_eq_true] at h2; exact h2)

/-- C7, witness: idempotence at the ordinary id `"1001"`. -/
theorem C7_idempotent_witness :
    DataValidator.normStr (DataValidator.normStr "1001") = DataValidator.normStr "1001" :=
  C7_idempotent_when_stable "1001" (by decide) (by decide)

/-- Half-even rounding fixes integers. -/
theorem roundHalfEven_intCast (n : ℤ) : roundHalfEven (n : ℚ) = n := by
  norm_num [roundHalfEven, Int.floor_intCast]

/-- `f"{v:,.0f}"` on a numeric cell formats its rational value. -/
theorem fmtFloat0V_num {cv : CellValue} {cq : ℚ} (hc : cellNum? cv = some cq) :
    DataValidator.fmtFloat0V cv = .ok (commaFmt0f cq) := by
  cases cv <;> simp_all [cellNum?, DataValidator.fmtFloat0V, commaFmt0f]
  rw [← hc, roundHalfEven_intCast]

/-- Shape of a cell holding a number. -/
theorem cellNum_eq {cv : CellValue} {cq : ℚ} (hc : cellNum? cv = some cq) :
    (∃ n : ℤ, cv = .int n ∧ cq = (n : ℚ)) ∨ cv = .float cq := by
  cases cv with
  | int n => exact Or.inl ⟨n, rfl, by simpa [cellNum?] using hc.symm⟩
  | float q =>
    right
    have hq : q = cq := by simpa [cellNum?] using hc
    rw [hq]
  | null => simp [cellNum?] at hc
  | str s => simp [cellNum?] at hc
  | date y m d => simp [cellNum?] at hc

/-- Python `<` on two numeric cells compares their rational values. -/
theorem pyLtV_num {cv nv : CellValue} {cq nq : ℚ} (hc : cellNum? cv = some cq)
    (hn : cellNum? nv = some nq) :
    DataValidator.pyLtV cv nv = .ok (decide (cq < nq)) := by
  rcases cellNum_eq hc with ⟨a, rfl, rfl⟩ | rfl <;> rcases cellNum_eq hn with ⟨b, rfl, rfl⟩ | rfl <;>
    simp [DataValidator.pyLtV, Int.cast_lt]

/-- The ordering-violation detail can never collide with the current-year
missing-estimate detail. -/
theorem ne_detail_curr (x : String) :
    ("당년도(" ++ x : String) ≠ "당년도 추계액이 0 또는 누락됨" := by
  intro h
  have h2 : '당' :: '년' :: '도' :: '(' :: x.data =
      ("당년도 추계액이 0 또는 누락됨" : String).data := congrArg String.data h
  simp at h2

/-- The ordering-violation detail can never collide with the next-year
missing-estimate detail. -/
theorem ne_detail_next (x : String) :
    ("당년도(" ++ x : String) ≠ "차년도 추계액이 0 또는 누락됨" := by
  intro h
  have h2 : '당' :: '년' :: '도' :: '(' :: x.data =
      ("차년도 추계액이 0 또는 누락됨" : String).data := congrArg String.data h
  simp at h2

/-- C10: for every Active record with employee-type code > 2 and both
estimates present as numbers, the executive/contract block succeeds and emits
the ordering Finding exactly when `current_year_estimate < next_year_estimate`
fails. -/
theorem C10_exec_ordering :
    ∀ (empId : Option String) (jt : ℚ) (cv nv : CellValue) (cq nq : ℚ),
      2 < jt → cellNum? cv = some cq → cellNum? nv = some nq →
      ∃ l, DataValidator.execCheck empId jt (some cv) (some nv) = Except.ok l ∧
        ((⟨"추계액 논리 오류(임원/계약직)", empId,
           "당년도(" ++ commaFmt0f cq ++ ") >= 차년도(" ++ commaFmt0f nq ++ ")"⟩ :
           DataValidator.Finding) ∈ l ↔ ¬ cq < nq) := by
  intro empId jt cv nv cq nq hjt hc hn
  unfold DataValidator.execCheck
  rw [if_pos hjt]
  simp only [pyLtV_num hc hn, fmtFloat0V_num hc, fmtFloat0V_num hn, Except.bind, bind]
  by_cases hlt : cq < nq
  · have hd : (decide (cq < nq)) = true := decide_eq_true hlt
    simp only [hd]
    rw [if_neg (fun h => h trivial)]
    refine ⟨_, rfl, ?_⟩
    constructor
    · intro hmem
      exfalso
      rcases List.mem_append.mp hmem with hm | hm
      · split at hm
        · have h := List.mem_singleton.mp hm
          exact ne_detail_curr _ (congrArg DataValidator.Finding.detail h)
        · cases hm
      · split at hm
        · have h := List.mem_singleton.mp hm
          exact ne_detail_next _ (congrArg DataValidator.Finding.detail h)
        · cases hm
    · intro hcon
      exact absurd hlt hcon
  · have hd : (decide (cq < nq)) = false := decide_eq_false hlt
    simp only [hd]
    rw [if_pos Bool.false_ne_true]
    refine ⟨_, rfl, ?_⟩
    constructor
    · intro _
      exact hlt
    · intro _
      simp [List.mem_append]

/-- A headcount block emits exactly on a convertible reported count that
differs from the derived count, and always attributes to `"전체"`. -/
theorem summaryCountFinding_spec (label : String) (reported : Option CellValue) (actual : ℤ) :
    (∀ f ∈ DataValidator.summaryCountFinding label reported actual,
       f.category = "합계 불일치" ∧ f.empId = some "전체") ∧
    (DataValidator.summaryCountFinding label reported actual ≠ [] ↔
      ∃ v n, reported = some v ∧ CellValue.toIntViaFloat v = some n ∧ n ≠ actual) := by
  unfold DataValidator.summaryCountFinding
  rcases reported with _ | v
  · simp
  · rcases hcv : CellValue.toIntViaFloat v with _ | n
    · simp [hcv]
    · by_cases hne : n = actual
      · simp [hcv, hne]
      · simp [hcv, hne]

/-- The estimate-total block emits exactly on a convertible reported total
more than 1 away from the derived sum, and always attributes to `"전체"`. -/
theorem summarySumFinding_spec (reported : Option CellValue) (actual : ℚ) :
    (∀ f ∈ DataValidator.summarySumFinding reported actual,
       f.category = "합계 불일치" ∧ f.empId = some "전체") ∧
    (DataValidator.summarySumFinding reported actual ≠ [] ↔
      ∃ v q, reported = some v ∧ CellValue.toFloatExc v = some q ∧ 1 < |q - actual|) := by
  unfold DataValidator.summarySumFinding
  rcases reported with _ | v
  · simp
  · rcases hcv : CellValue.toFloatExc v with _ | q
    · simp [hcv]
    · by_cases htol : 1 < |q - actual|
      · simp [hcv, htol]
      · simp [hcv, htol]

/-- C8: PlanSummary reconciliation emits a `"합계 불일치"` Finding attributed
to `"전체"` (no specific employee) exactly when a reported headcount converts
to an integer different from the derived register count, or the reported
estimate total converts to a number more than 1 currency unit away from the
derived sum. -/
theorem C8_summary_reconciliation :
    ∀ (allData : List (String × List Row)) (s0 : Row) (rest : List Row),
      (∀ f ∈ DataValidator.validateRetirementBenefitSummary allData (s0 :: rest),
         f.category = "합계 불일치" ∧ f.empId = some "전체") ∧
      (DataValidator.validateRetirementBenefitSummary allData (s0 :: rest) ≠ [] ↔
        ((∃ v n, DataValidator.dictGet s0 "재직자수_합계" = some v ∧
            CellValue.toIntViaFloat v = some n ∧ n ≠ (DataValidator.scanSummary allData).1) ∨
         (∃ v n, DataValidator.dictGet s0 "퇴직자수_합계" = some v ∧
            CellValue.toIntViaFloat v = some n ∧ n ≠ (DataValidator.scanSummary allData).2.1) ∨
         (∃ v q, DataValidator.dictGet s0 "퇴직금_추계액_합계" = some v ∧
            CellValue.toFloatExc v = some q ∧
            1 < |q - (DataValidator.scanSummary allData).2.2|))) := by
  intro allData s0 rest
  unfold DataValidator.validateRetirementBenefitSummary
  constructor
  · intro f hf
    rcases List.mem_append.mp hf with hf2 | hf2
    · rcases List.mem_append.mp hf2 with hf3 | hf3
      · exact (summaryCountFinding_spec _ _ _).1 f hf3
      · exact (summaryCountFinding_spec _ _ _).1 f hf3
    · exact (summarySumFinding_spec _ _).1 f hf2
  · rw [ne_eq, List.append_eq_nil, List.append_eq_nil]
    constructor
    · intro h
      by_cases h1 : DataValidator.summaryCountFinding "재직자수"
          (DataValidator.dictGet s0 "재직자수_합계") (DataValidator.scanSummary allData).1 = []
      · by_cases h2 : DataValidator.summaryCountFinding "퇴직자수"
            (DataValidator.dictGet s0 "퇴직자수_합계") (DataValidator.scanSummary allData).2.1 = []
        · have h3 : DataValidator.summarySumFinding
              (DataValidator.dictGet s0 "퇴직금_추계액_합계")
              (DataValidator.scanSummary allData).2.2 ≠ [] := by
            intro hh
            exact h ⟨⟨h1, h2⟩, hh⟩
          exact Or.inr (Or.inr ((summarySumFinding_spec _ _).2.mp h3))
        · exact Or.inr (Or.inl ((summaryCountFinding_spec _ _ _).2.mp h2))
      · exact Or.inl ((summaryCountFinding_spec _ _ _).2.mp h1)
    · intro h hc
      rcases h with h | h | h
      · exact ((summaryCountFinding_spec _ _ _).2.mpr h) hc.1.1
      · exact ((summaryCountFinding_spec _ _ _).2.mpr h) hc.1.2
      · exact ((summarySumFinding_spec _ _).2.mpr h) hc.2

/-- C8, witness: a summary reporting 3 active employees and a 148 total
against a register with 2 employees summing to 150 emits findings, each
with the aggregate-mismatch category and no specific employee. -/
theorem C8_summary_reconciliation_witness :
    (⟨"합계 불일치", some "전체", "재직자수: 기초자료(3명) ≠ 명부(2명)"⟩ :
      DataValidator.Finding).category = "합계 불일치" ∧
    (⟨"합계 불일치", some "전체", "재직자수: 기초자료(3명) ≠ 명부(2명)"⟩ :
      DataValidator.Finding).empId = some "전체" :=
  (C8_summary_reconciliation
    [("재직자명부", [[("사원번호", CellValue.str "A"), ("당년도", CellValue.int 100)],
                     [("사원번호", CellValue.str "B"), ("당년도", CellValue.int 50)]])]
    [("재직자수_합계", CellValue.int 3), ("퇴직금_추계액_합계", CellValue.int 148)] []).1
    ⟨"합계 불일치", some "전체", "재직자수: 기초자료(3명) ≠ 명부(2명)"⟩ (by decide)

/-- C10, witness: employee type 3 with current estimate 5 and next estimate 3
(5 < 3 fails, so the ordering Finding is emitted). -/
theorem C10_exec_ordering_witness :
    ∃ l, DataValidator.execCheck (some "X") 3 (some (CellValue.int 5)) (some (CellValue.int 3)) =
      Except.ok l ∧
      ((⟨"추계액 논리 오류(임원/계약직)", some "X",
         "당년도(" ++ commaFmt0f 5 ++ ") >= 차년도(" ++ commaFmt0f 3 ++ ")"⟩ :
         DataValidator.Finding) ∈ l ↔ ¬ (5 : ℚ) < 3) :=
  C10_exec_ordering (some "X") 3 (CellValue.int 5) (CellValue.int 3) 5 3
    (by norm_num) (by decide) (by decide)

/-- C9, counterexample: with Active register rows in encounter order B, A
(and the same ids retired), the cross-register duplicate category lists A
before B (`sorted(duplicates)`), not in record encounter order. -/
theorem C9_order_counterexample :
    ([[("사원번호", CellValue.str "B")], [("사원번호", CellValue.str "A")]].map
      (fun r => rowGet r "사원번호")) = [CellValue.str "B", CellValue.str "A"] ∧
    DataValidator.validate ⟨2025, 1, 1⟩
      [("재직자명부", [[("사원번호", CellValue.str "B")], [("사원번호", CellValue.str "A")]]),
       ("퇴직자명부", [[("사원번호", CellValue.str "B")], [("사원번호", CellValue.str "A")]])] =
      Except.ok
        [("재직자명부", [("명부 간 중복",
            [⟨some "A", "재직자명부와 퇴직자명부에 모두 존재"⟩,
             ⟨some "B", "재직자명부와 퇴직자명부에 모두 존재"⟩])]),
         ("퇴직자명부", [("명부 간 중복",
            [⟨some "A", "재직자명부와 퇴직자명부에 모두 존재"⟩,
             ⟨some "B", "재직자명부와 퇴직자명부에 모두 존재"⟩])])] ∧
    ([some "A", some "B"] : List (Option String)) ≠ [some "B", some "A"] := by
  refine ⟨by decide, by decide, by decide⟩

/-- Appending under a category extends exactly that category's list. -/
theorem catLookup_catAppend_same (m : DataValidator.CatMap) (c : String)
    (f : DataValidator.FindingOut) :
    DataValidator.catLookup (DataValidator.catAppend m c f) c =
      DataValidator.catLookup m c ++ [f] := by
  induction m with
  | nil => simp [DataValidator.catAppend, DataValidator.catLookup]
  | cons p rest ih =>
    by_cases h : p.1 = c
    · simp [DataValidator.catAppend, DataValidator.catLookup, List.find?_cons, h]
    · simp [DataValidator.catAppend, DataValidator.catLookup, List.find?_cons, h] at ih ⊢
      exact ih

/-- Appending under a category leaves the other categories unchanged. -/
theorem catLookup_catAppend_other (m : DataValidator.CatMap) (c c2 : String)
    (f : DataValidator.FindingOut) (h : c2 ≠ c) :
    DataValidator.catLookup (DataValidator.catAppend m c f) c2 =
      DataValidator.catLookup m c2 := by
  induction m with
  | nil => simp [DataValidator.catAppend, DataValidator.catLookup, List.find?_cons, Ne.symm h]
  | cons p rest ih =>
    obtain ⟨c0, l0⟩ := p
    by_cases hp : c0 = c
    · subst hp
      simp [DataValidator.catAppend, DataValidator.catLookup, List.find?_cons, Ne.symm h]
    · by_cases hp2 : c0 = c2
      · subst hp2
        simp [DataValidator.catAppend, DataValidator.catLookup, List.find?_cons, hp]
      · simp [DataValidator.catAppend, DataValidator.catLookup, List.find?_cons, hp, hp2] at ih ⊢
        exact ih

/-- Appending under a sheet rewrites exactly that sheet's category map. -/
theorem srLookup_srAppend_same (sr : DataValidator.StructRes) (s c : String)
    (f : DataValidator.FindingOut) :
    DataValidator.srLookup (DataValidator.srAppend sr s c f) s =
      DataValidator.catAppend (DataValidator.srLookup sr s) c f := by
  induction sr with
  | nil => simp [DataValidator.srAppend, DataValidator.srLookup, DataValidator.catAppend]
  | cons p rest ih =>
    by_cases h : p.1 = s
    · simp [DataValidator.srAppend, DataValidator.srLookup, List.find?_cons, h]
    · simp [DataValidator.srAppend, DataValidator.srLookup, List.find?_cons, h] at ih ⊢
      exact ih

/-- Grouping a sheet's error list by category is stable: each category ends
up with exactly its errors, projected, in emission order. -/
theorem groupErrors_stable :
    ∀ (errs : List DataValidator.Finding) (sr : DataValidator.StructRes) (sheet cat : String),
      DataValidator.catLookup
          (DataValidator.srLookup (DataValidator.groupErrors sr sheet errs) sheet) cat =
        DataValidator.catLookup (DataValidator.srLookup sr sheet) cat ++
          (errs.filter (fun e => e.category = cat)).map
            (fun e => (⟨e.empId, e.detail⟩ : DataValidator.FindingOut)) := by
  intro errs
  induction errs with
  | nil => intro sr sheet cat; simp [DataValidator.groupErrors]
  | cons e es ih =>
    intro sr sheet cat
    have hg : DataValidator.groupErrors sr sheet (e :: es) =
        DataValidator.groupErrors
          (DataValidator.srAppend sr sheet e.category ⟨e.empId, e.detail⟩) sheet es := rfl
    rw [hg, ih, srLookup_srAppend_same]
    by_cases h : e.category = cat
    · subst h
      rw [catLookup_catAppend_same]
      simp [List.filter_cons]
    · rw [catLookup_catAppend_other _ _ _ _ (Ne.symm h)]
      simp [List.filter_cons, h]

/-- Code-point ordering on character lists is irreflexive. -/
theorem charListLt_irrefl : ∀ l, DataValidator.charListLt l l = false := by
  intro l
  induction l with
  | nil => rfl
  | cons c cs ih => simp [DataValidator.charListLt, ih]

/-- Code-point ordering on character lists is transitive. -/
theorem charListLt_trans :
    ∀ (a b c : List Char), DataValidator.charListLt a b = true →
      DataValidator.charListLt b c = true → DataValidator.charListLt a c = true := by
  intro a
  induction a with
  | nil =>
    intro b c hab hbc
    cases b with
    | nil => cases hab
    | cons y ys =>
      cases c with
      | nil => cases hbc
      | cons z zs => rfl
  | cons x xs ih =>
    intro b c hab hbc
    cases b with
    | nil => cases hab
    | cons y ys =>
      cases c with
      | nil => cases hbc
      | cons z zs =>
        simp only [DataValidator.charListLt] at hab hbc ⊢
        by_cases hxy : x.toNat < y.toNat <;> by_cases hyz : y.toNat < z.toNat <;>
          by_cases hyx : y.toNat < x.toNat <;> by_cases hzy : z.toNat < y.toNat <;>
            simp_all <;>
              first
              | omega
              | (exact Or.inl (by omega))
              | (exact Or.inr ⟨by omega, ih ys zs (by assumption) (by assumption)⟩)

/-- Code-point ordering on character lists is asymmetric. -/
theorem charListLt_asymm {a b : List Char} (h : DataValidator.charListLt a b = true) :
    DataValidator.charListLt b a = false := by
  cases hba : DataValidator.charListLt b a
  · rfl
  · have habs := charListLt_trans a b a h hba
    rw [charListLt_irrefl] at habs
    cases habs

/-- Ascending insertion permutes consing. -/
theorem insertAsc_perm (x : String) (l : List String) :
    (DataValidator.insertAsc x l).Perm (x :: l) := by
  induction l with
  | nil => simp [DataValidator.insertAsc]
  | cons y ys ih =>
    unfold DataValidator.insertAsc
    split
    · exact List.Perm.refl _
    · exact (ih.cons y).trans (List.Perm.swap x y ys)

/-- Ascending insertion preserves sortedness. -/
theorem insertAsc_pairwise (x : String) (l : List String)
    (h : l.Pairwise (fun a b => DataValidator.strLtB b a = false)) :
    (DataValidator.insertAsc x l).Pairwise (fun a b => DataValidator.strLtB b a = false) := by
  induction l with
  | nil => simp [DataValidator.insertAsc]
  | cons y ys ih =>
    unfold DataValidator.insertAsc
    rcases h with _ | ⟨hy, hys⟩
    split
    · rename_i hxy
      refine List.Pairwise.cons ?_ (List.Pairwise.cons hy hys)
      intro z hz
      rcases List.mem_cons.mp hz with rfl | hz2
      · exact charListLt_asymm hxy
      · cases hzx : DataValidator.strLtB z x
        · rfl
        · have h1 := charListLt_trans z.data x.data y.data hzx hxy
          have h2 := hy z hz2
          unfold DataValidator.strLtB at h2
          rw [h2] at h1
          cases h1
    · rename_i hxy
      refine List.Pairwise.cons ?_ (ih hys)
      intro z hz
      rcases List.mem_cons.mp ((insertAsc_perm x ys).mem_iff.mp hz) with rfl | hz2
      · simpa using hxy
      · exact hy z hz2

/-- Python `sorted` output is non-descending in code-point order. -/
theorem sortStr_pairwise (l : List String) :
    (DataValidator.sortStr l).Pairwise (fun a b => DataValidator.strLtB b a = false) := by
  induction l with
  | nil => simp [DataValidator.sortStr]
  | cons y ys ih => exact insertAsc_pairwise y _ ih

/-- C9, amended: within each sheet, the per-category grouping of the sheet
validator's error list is stable — each category holds exactly its errors in
emission order, which for the per-record rules is record encounter order —
while the cross-register duplicate category is instead ordered by ascending
employee id (`sorted(duplicates)`), not by encounter order. -/
theorem C9_category_order :
    (∀ (sr : DataValidator.StructRes) (sheet : String) (errs : List DataValidator.Finding)
       (cat : String),
       DataValidator.catLookup
           (DataValidator.srLookup (DataValidator.groupErrors sr sheet errs) sheet) cat =
         DataValidator.catLookup (DataValidator.srLookup sr sheet) cat ++
           (errs.filter (fun e => e.category = cat)).map
             (fun e => (⟨e.empId, e.detail⟩ : DataValidator.FindingOut))) ∧
    (∀ dups : List String,
       (DataValidator.sortStr dups).Pairwise (fun a b => DataValidator.strLtB b a = false) ∧
       DataValidator.crossDupFindings dups =
         (DataValidator.sortStr dups).map
           (fun d => ⟨some d, "재직자명부와 퇴직자명부에 모두 존재"⟩)) := by
  refine ⟨?_, ?_⟩
  · intro sr sheet errs cat
    exact groupErrors_stable errs sr sheet cat
  · intro dups
    exact ⟨sortStr_pairwise dups, rfl⟩

end Spec2Proof
